import Mathlib

/-!
Verification development for the Sportarr Plex metadata agent
(`Sportarr.bundle/Contents/Code/__init__.py`).

The agent's three entry points — `search`, `update`, `update_episodes` —
are shallowly embedded below.  Remote JSON responses are modelled as typed
records whose `Option` fields model key absence (the one place the claims
need the distinction between an absent key and a key carried with a JSON
null — the `title` field of a search result — uses the three-valued `JStr`
instead).  The host-injected collaborators (HTTP client, date parser) are
modelled as an explicit environment `Env`; a `none` result of one of its
functions models the corresponding Python call raising.  Plex's
url-keyed image collections and its season/episode maps are modelled as
insertion-ordered association lists with Python-dict write semantics
(`setA` replaces in place, else appends).  Each pipeline function also
returns the list of network requests it issued (`Event`), so that claims
about which fetches are attempted can be stated.
-/

namespace Sportarr

/-! ### Insertion-ordered maps (Python dict / Plex image and season maps) -/

def getA {K V : Type} [DecidableEq K] : List (K × V) → K → Option V
  | [], _ => none
  | p :: r, k => if p.1 = k then some p.2 else getA r k

def setA {K V : Type} [DecidableEq K] (M : List (K × V)) (k : K) (v : V) :
    List (K × V) :=
  if (getA M k).isSome then
    M.map (fun p => if p.1 = k then (k, v) else p)
  else
    M ++ [(k, v)]

/-! ### Remote records (the JSON payloads of the four API endpoints) -/

/-- Three-valued JSON string field: key absent, key present with `null`,
or key present with a string. -/
inductive JStr : Type
  | missing
  | null
  | str (s : String)
deriving DecidableEq

/-- One entry of the search response's `results` list. -/
structure SearchEntry : Type where
  id : Option Int
  title : JStr
  year : Option Int
deriving DecidableEq

/-- Search response; `results = none` models a response without the
`results` key. -/
structure SearchResponse : Type where
  results : Option (List SearchEntry)
deriving DecidableEq

structure SeriesRecord : Type where
  title : Option String
  summary : Option String
  year : Option Int
  studio : Option String
  content_rating : Option String
  genres : Option (List String)
  poster_url : Option String
  banner_url : Option String
  fanart_url : Option String
deriving DecidableEq

structure SeasonRecord : Type where
  season_number : Option Int
  title : Option String
  summary : Option String
  poster_url : Option String
deriving DecidableEq

structure EpisodeRecord : Type where
  episode_number : Option Int
  title : Option String
  part_name : Option String
  summary : Option String
  air_date : Option String
  duration_minutes : Option Int
  thumb_url : Option String
deriving DecidableEq

/-- Seasons response; `seasons = none` models a response without the
`seasons` key. -/
structure SeasonsResponse : Type where
  seasons : Option (List SeasonRecord)
deriving DecidableEq

/-- Episodes response; `episodes = none` models a response without the
`episodes` key. -/
structure EpisodesResponse : Type where
  episodes : Option (List EpisodeRecord)
deriving DecidableEq

/-! ### Python truthiness of the optional fields the source guards on -/

/-- Truthiness of `d.get(key)` for a string field: present and non-empty. -/
def truthyStr : Option String → Bool
  | some s => decide (s ≠ "")
  | none => false

/-- Truthiness of `d.get(key)` for an integer field: present and nonzero. -/
def truthyInt : Option Int → Bool
  | some n => decide (n ≠ 0)
  | none => false

/-- The record denoting the empty JSON object, which is falsy in Python. -/
def emptySeriesRecord : SeriesRecord :=
  { title := none, summary := none, year := none, studio := none
    content_rating := none, genres := none, poster_url := none
    banner_url := none, fanart_url := none }

/-- Truthiness of the fetched series object (`if series:`). -/
def seriesTruthy (sr : SeriesRecord) : Bool :=
  decide (sr ≠ emptySeriesRecord)

/-! ### Host-side model (the Plex metadata object and the media handle) -/

structure HostEpisode : Type where
  title : Option String
  summary : Option String
  originally_available_at : Option String
  duration : Option Int
  thumbs : List (String × String)
deriving DecidableEq

def emptyHostEpisode : HostEpisode :=
  { title := none, summary := none, originally_available_at := none
    duration := none, thumbs := [] }

structure HostSeason : Type where
  title : Option String
  summary : Option String
  posters : List (String × String)
  episodes : List (Int × HostEpisode)
deriving DecidableEq

def emptyHostSeason : HostSeason :=
  { title := none, summary := none, posters := [], episodes := [] }

structure HostMetadata : Type where
  title : Option String
  summary : Option String
  originally_available_at : Option String
  studio : Option String
  content_rating : Option String
  genres : List String
  posters : List (String × String)
  banners : List (String × String)
  art : List (String × String)
  seasons : List (Int × HostSeason)
deriving DecidableEq

/-- The host's `media` handle: the seasons (with their episode numbers)
that the host's own library scan has already discovered. -/
structure Media : Type where
  seasons : List (Int × List Int)
deriving DecidableEq

/-- Python `season_num in media.seasons`. -/
def hasSeason (media : Media) (n : Int) : Bool :=
  media.seasons.any (fun p => decide (p.1 = n))

/-- The episode numbers the host knows for season `n`
(`media.seasons[n].episodes`). -/
def knownEpisodes (media : Media) (n : Int) : List Int :=
  (getA media.seasons n).getD []

/-- `metadata.genres.add g` on Plex's genre set: append when new. -/
def addGenre (gs : List String) (g : String) : List String :=
  if g ∈ gs then gs else gs ++ [g]

/-! ### Environment: remote responses and host-injected collaborators

A `none` at the outer layer of a fetch models the corresponding call
raising (transport or parse failure); `parseDate s = none` models
`Datetime.ParseDate s` raising; `http u = none` models
`HTTP.Request(u)` raising. -/

structure Env : Type where
  seriesResp : Option (Option SeriesRecord)
  seasonsResp : Option SeasonsResponse
  episodesResp : Int → Option EpisodesResponse
  http : String → Option String
  parseDate : String → Option String

/-- A network request issued by the pipeline. -/
inductive Event : Type
  | fetchSeries
  | fetchSeasons
  | fetchEpisodes (season : Int)
  | fetchAsset (url : String)
deriving DecidableEq

/-! ### The Candidate Resolver (`SportarrAgent.search`) -/

structure Candidate : Type where
  id : String
  name : Option String
  year : Option Int
  score : Int
deriving DecidableEq

/-- ASCII lowercasing (Python `str.lower` on the titles in scope). -/
def lowerStr (s : String) : String :=
  String.mk (s.data.map Char.toLower)

/-- Python `str(series.get('id'))`: an absent id stringifies as "None". -/
def pyStr : Option Int → String
  | some n => toString n
  | none => "None"

/-- `series.get('title')` (no default): a missing or null key gives None. -/
def entryName : JStr → Option String
  | JStr.str s => some s
  | _ => none

/-- `series.get('title', '')` on the non-raising values: a missing key
defaults to the empty string (`JStr.null` is the raising case, handled
in `procEntry`). -/
def defaultedTitle : JStr → String
  | JStr.missing => ""
  | JStr.null => ""
  | JStr.str s => s

/-- The `MetadataSearchResult` built for the entry at index `idx`:
score `100 - idx*5`, overridden to 100 on an exact case-insensitive
title match against the queried show name. -/
def candidateOf (q : String) (idx : Nat) (e : SearchEntry) : Candidate :=
  { id := pyStr e.id
    name := entryName e.title
    year := e.year
    score :=
      if lowerStr (defaultedTitle e.title) = lowerStr q then 100
      else 100 - 5 * (idx : Int) }

/-- Processing of one search result entry; `none` models the
`AttributeError` raised by `None.lower()` when the `title` key is
present with a JSON null. -/
def procEntry (q : String) (idx : Nat) (e : SearchEntry) : Option Candidate :=
  match e.title with
  | JStr.null => none
  | _ => some (candidateOf q idx e)

/-- The `for idx, series in enumerate(response['results'][:10])` loop.
An entry that raises ends the loop; the results appended before it are
kept (the surrounding `try` swallows the exception). -/
def searchLoop (q : String) : Nat → List SearchEntry → List Candidate
  | _, [] => []
  | idx, e :: rest =>
    match procEntry q idx e with
    | none => []
    | some c => c :: searchLoop q (idx + 1) rest

/-- `SportarrAgent.search`: `resp = none` models the fetch itself
raising; a response without a `results` key appends nothing. -/
def search (q : String) (resp : Option SearchResponse) : List Candidate :=
  match resp with
  | none => []
  | some r =>
    match r.results with
    | none => []
    | some entries => searchLoop q 0 (entries.take 10)

/-! ### The Season/Episode Mapper (`SportarrAgent.update_episodes`) -/

/-- The per-episode field writes, for a remote record `d` matched to the
host episode `e` (known episode number `n`).  Returns the updated episode
together with the asset requests issued. -/
def applyEpisode (env : Env) (n : Int) (d : EpisodeRecord) (e : HostEpisode) :
    HostEpisode × List Event :=
  let title := d.title.getD ("Episode " ++ toString n)
  let title :=
    if truthyStr d.part_name then title ++ " - " ++ d.part_name.getD ""
    else title
  let e := { e with title := some title, summary := some (d.summary.getD "") }
  let e :=
    if truthyStr d.air_date then
      match env.parseDate (d.air_date.getD "") with
      | some dt => { e with originally_available_at := some dt }
      | none => e
    else e
  let e :=
    if truthyInt d.duration_minutes then
      { e with duration := some (d.duration_minutes.getD 0 * 60 * 1000) }
    else e
  if truthyStr d.thumb_url then
    let u := d.thumb_url.getD ""
    match env.http u with
    | some c => ({ e with thumbs := setA e.thumbs u c }, [Event.fetchAsset u])
    | none => (e, [Event.fetchAsset u])
  else (e, [])

/-- One iteration of the `for ep_data in episodes_response['episodes']`
loop: an episode number that is absent, or not in the host's known
episode set for this season, is skipped. -/
def epLoopStep (env : Env) (media : Media) (n : Int)
    (acc : HostSeason × List Event) (d : EpisodeRecord) :
    HostSeason × List Event :=
  match d.episode_number with
  | none => acc
  | some k =>
    if (knownEpisodes media n).contains k then
      let e0 := (getA acc.1.episodes k).getD emptyHostEpisode
      let r := applyEpisode env k d e0
      ({ acc.1 with episodes := setA acc.1.episodes k r.1 }, acc.2 ++ r.2)
    else acc

/-- `SportarrAgent.update_episodes` for season `n` of the series, acting
on the host season object `s`.  A failing episodes fetch, or a response
without an `episodes` key, leaves the season as it was (the method's own
`try` catches everything). -/
def update_episodes (env : Env) (media : Media) (n : Int) (s : HostSeason) :
    HostSeason × List Event :=
  match env.episodesResp n with
  | none => (s, [Event.fetchEpisodes n])
  | some resp =>
    match resp.episodes with
    | none => (s, [Event.fetchEpisodes n])
    | some eps =>
      eps.foldl (epLoopStep env media n) (s, [Event.fetchEpisodes n])

/-! ### The Series Mapper (`SportarrAgent.update`) -/

/-- The season-level field writes for a remote season record `sd` with
known season number `n`, followed by the delegated episode sync. -/
def applySeason (env : Env) (media : Media) (n : Int) (sd : SeasonRecord)
    (s : HostSeason) : HostSeason × List Event :=
  let s :=
    { s with
        title := some (sd.title.getD ("Season " ++ toString n))
        summary := some (sd.summary.getD "") }
  let r :=
    if truthyStr sd.poster_url then
      let u := sd.poster_url.getD ""
      match env.http u with
      | some c => ({ s with posters := setA s.posters u c }, [Event.fetchAsset u])
      | none => (s, [Event.fetchAsset u])
    else (s, [])
  let r2 := update_episodes env media n r.1
  (r2.1, r.2 ++ r2.2)

/-- One iteration of the `for season_data in seasons_response['seasons']`
loop: a season number that is absent, or not in the host's known season
set, is skipped entirely. -/
def seasonStep (env : Env) (media : Media) (acc : HostMetadata × List Event)
    (sd : SeasonRecord) : HostMetadata × List Event :=
  match sd.season_number with
  | none => acc
  | some n =>
    if hasSeason media n then
      let s0 := (getA acc.1.seasons n).getD emptyHostSeason
      let r := applySeason env media n sd s0
      ({ acc.1 with seasons := setA acc.1.seasons n r.1 }, acc.2 ++ r.2)
    else acc

/-- The series-level field writes for a truthy fetched series record:
scalar fields overwritten, `originally_available_at` reset and then set
from a synthesized "year-01-01" date when the year parses, genres
cleared and repopulated, and the three series images each fetched under
their own exception guard. -/
def seriesApply (env : Env) (sr : SeriesRecord) (m : HostMetadata) :
    HostMetadata × List Event :=
  let m :=
    { m with
        title := sr.title, summary := sr.summary
        originally_available_at := none }
  let m :=
    if truthyInt sr.year then
      match env.parseDate (toString (sr.year.getD 0) ++ "-01-01") with
      | some dt => { m with originally_available_at := some dt }
      | none => m
    else m
  let m := { m with studio := sr.studio, content_rating := sr.content_rating }
  let m := { m with genres := (sr.genres.getD []).foldl addGenre [] }
  let r :=
    if truthyStr sr.poster_url then
      let u := sr.poster_url.getD ""
      match env.http u with
      | some c => ({ m with posters := setA m.posters u c }, [Event.fetchAsset u])
      | none => (m, [Event.fetchAsset u])
    else (m, [])
  let r2 :=
    if truthyStr sr.banner_url then
      let u := sr.banner_url.getD ""
      match env.http u with
      | some c =>
        ({ r.1 with banners := setA r.1.banners u c }, r.2 ++ [Event.fetchAsset u])
      | none => (r.1, r.2 ++ [Event.fetchAsset u])
    else r
  let r3 :=
    if truthyStr sr.fanart_url then
      let u := sr.fanart_url.getD ""
      match env.http u with
      | some c =>
        ({ r2.1 with art := setA r2.1.art u c }, r2.2 ++ [Event.fetchAsset u])
      | none => (r2.1, r2.2 ++ [Event.fetchAsset u])
    else r2
  r3

/-- `SportarrAgent.update`: fetch the series record (a raising fetch
aborts the pass, caught at the top), write the series fields when the
record is truthy, then fetch the seasons list (a raising fetch aborts
what remains) and run the season loop. -/
def update (env : Env) (media : Media) (m : HostMetadata) :
    HostMetadata × List Event :=
  match env.seriesResp with
  | none => (m, [Event.fetchSeries])
  | some sopt =>
    let r1 :=
      match sopt with
      | some sr => if seriesTruthy sr then seriesApply env sr m else (m, [])
      | none => (m, [])
    match env.seasonsResp with
    | none => (r1.1, Event.fetchSeries :: r1.2 ++ [Event.fetchSeasons])
    | some resp =>
      match resp.seasons with
      | none => (r1.1, Event.fetchSeries :: r1.2 ++ [Event.fetchSeasons])
      | some sds =>
        let r2 := sds.foldl (seasonStep env media) (r1.1, [])
        (r2.1, Event.fetchSeries :: r1.2 ++ [Event.fetchSeasons] ++ r2.2)

/-! ### Observation helpers used by the claim statements -/

def seasonEntry (m : HostMetadata) (n : Int) : Option HostSeason :=
  getA m.seasons n

def episodeEntry (m : HostMetadata) (n e : Int) : Option HostEpisode :=
  getA ((getA m.seasons n).getD emptyHostSeason).episodes e

/-- Specification-side ranking: one candidate per entry, in response
order, the entry at offset `j` of the suffix scored at index `i + j`. -/
def rankedFrom (q : String) (i : Nat) : List SearchEntry → List Candidate
  | [] => []
  | e :: r => candidateOf q i e :: rankedFrom q (i + 1) r

/-! ### Concrete search fixtures -/

def eFoo : SearchEntry := { id := some 1, title := JStr.str "Foo", year := some 2024 }

def eNull : SearchEntry := { id := some 2, title := JStr.null, year := none }

def eBar : SearchEntry := { id := some 3, title := JStr.str "Bar", year := none }

/-! ### Generic keyed fold

Both loops of the update pass (over remote seasons, and within a season
over remote episodes) have the same shape: look up the record's key,
skip unknown keys, read the host entry (creating a default on first
access), transform it, and store it back.  `foldStep` captures that
shape once so that the frame, idempotence and relational lemmas can be
proved generically. -/

def stepA {I K V : Type} [DecidableEq K] (key : I → Option K) (tr : I → V → V)
    (d0 : V) (M : List (K × V)) (i : I) : List (K × V) :=
  match key i with
  | none => M
  | some k => setA M k (tr i ((getA M k).getD d0))

def foldStep {I K V : Type} [DecidableEq K] (key : I → Option K)
    (tr : I → V → V) (d0 : V) (M : List (K × V)) (l : List I) : List (K × V) :=
  l.foldl (stepA key tr d0) M

/-- Predicate: the map stores key `k` and every pair at `k` is `(k, v)`. -/
def uniformAt {K V : Type} [DecidableEq K] (M : List (K × V)) (k : K) (v : V) :
    Prop :=
  (getA M k).isSome = true ∧ ∀ p ∈ M, p.1 = k → p = (k, v)

/-- Pointwise relation on map entries: equal keys, related values. -/
def pairRel {K V : Type} (R : V → V → Prop) (p q : K × V) : Prop :=
  p.1 = q.1 ∧ R p.2 q.2

/-! ### Pure/event decomposition of the update pass

The traced update functions above mirror the source line by line.  The
definitions below restate their metadata effect as instances of the
keyed fold and their request trace as a pure function of the remote
data; the `..._eq` lemmas further down prove the two presentations
equal. -/

/-- One guarded asset attach: fetch when the url field is truthy, and on
success store the bytes keyed by the url; a failed fetch attaches
nothing. -/
def attachOp (env : Env) (url? : Option String) (P : List (String × String)) :
    List (String × String) :=
  if truthyStr url? then
    match env.http (url?.getD "") with
    | some c => setA P (url?.getD "") c
    | none => P
  else P

/-- The request issued by one guarded asset attach (issued whether or
not the fetch succeeds). -/
def assetEvents (url? : Option String) : List Event :=
  if truthyStr url? then [Event.fetchAsset (url?.getD "")] else []

/-- The key under which an episode record is written: its episode
number, provided the host knows it for season `n`. -/
def epKey (media : Media) (n : Int) (d : EpisodeRecord) : Option Int :=
  match d.episode_number with
  | none => none
  | some k => if (knownEpisodes media n).contains k then some k else none

/-- The per-episode transform, keyed by the record's own number. -/
def trEp (env : Env) (d : EpisodeRecord) (e : HostEpisode) : HostEpisode :=
  (applyEpisode env (d.episode_number.getD 0) d e).1

/-- The episode title the code composes (default base, then the part
suffix when a part name is carried and non-empty). -/
def codeEpisodeTitle (n : Int) (d : EpisodeRecord) : String :=
  let base := d.title.getD ("Episode " ++ toString n)
  if truthyStr d.part_name then base ++ " - " ++ d.part_name.getD "" else base

/-- Effect of the air-date write on the episode's prior value: a truthy
`air_date` that parses overwrites, anything else leaves the prior
value. -/
def airOp (env : Env) (d : EpisodeRecord) (prev : Option String) :
    Option String :=
  if truthyStr d.air_date then
    match env.parseDate (d.air_date.getD "") with
    | some dt => some dt
    | none => prev
  else prev

/-- Effect of the duration write on the episode's prior value. -/
def durOp (d : EpisodeRecord) (prev : Option Int) : Option Int :=
  if truthyInt d.duration_minutes then
    some (d.duration_minutes.getD 0 * 60 * 1000)
  else prev

/-- The requests issued by `update_episodes` for season `n`. -/
def episodesEvents (env : Env) (media : Media) (n : Int) : List Event :=
  match env.episodesResp n with
  | none => [Event.fetchEpisodes n]
  | some resp =>
    match resp.episodes with
    | none => [Event.fetchEpisodes n]
    | some eps =>
      Event.fetchEpisodes n ::
        (eps.map (fun d =>
          match epKey media n d with
          | some _ => assetEvents d.thumb_url
          | none => [])).flatten

/-- The effect of `update_episodes` for season `n` on the season's
episode map. -/
def episodesPart (env : Env) (media : Media) (n : Int)
    (E : List (Int × HostEpisode)) : List (Int × HostEpisode) :=
  match env.episodesResp n with
  | none => E
  | some resp =>
    match resp.episodes with
    | none => E
    | some eps => foldStep (epKey media n) (trEp env) emptyHostEpisode E eps

/-- The key under which a season record is written: its season number,
provided the host knows it. -/
def seasonKey (media : Media) (sd : SeasonRecord) : Option Int :=
  match sd.season_number with
  | none => none
  | some n => if hasSeason media n then some n else none

/-- The per-season transform, keyed by the record's own number. -/
def trSeason (env : Env) (media : Media) (sd : SeasonRecord) (s : HostSeason) :
    HostSeason :=
  (applySeason env media (sd.season_number.getD 0) sd s).1

/-- The requests issued while processing one remote season record. -/
def seasonEvents (env : Env) (media : Media) (sd : SeasonRecord) : List Event :=
  match seasonKey media sd with
  | none => []
  | some n => assetEvents sd.poster_url ++ episodesEvents env media n

/-- The asset requests issued by the series-level field writes. -/
def seriesEvents (sr : SeriesRecord) : List Event :=
  assetEvents sr.poster_url ++ assetEvents sr.banner_url ++
    assetEvents sr.fanart_url

/-- Metadata effect of the series-level field writes. -/
def seriesApplyM (env : Env) (sr : SeriesRecord) (m : HostMetadata) :
    HostMetadata :=
  (seriesApply env sr m).1

/-- Metadata effect of the `if series:` block of `update`. -/
def seriesPart (env : Env) (sopt : Option SeriesRecord) (m : HostMetadata) :
    HostMetadata :=
  match sopt with
  | some sr => if seriesTruthy sr then seriesApplyM env sr m else m
  | none => m

/-- Requests issued by the `if series:` block of `update`. -/
def seriesPartEvents (sopt : Option SeriesRecord) : List Event :=
  match sopt with
  | some sr => if seriesTruthy sr then seriesEvents sr else []
  | none => []

/-- Effect of the season loop of `update` on the seasons map. -/
def seasonsPart (env : Env) (media : Media) (S : List (Int × HostSeason)) :
    List (Int × HostSeason) :=
  match env.seasonsResp with
  | none => S
  | some resp =>
    match resp.seasons with
    | none => S
    | some sds => foldStep (seasonKey media) (trSeason env media) emptyHostSeason S sds

/-- Requests issued by the season loop of `update`. -/
def seasonsPartEvents (env : Env) (media : Media) : List Event :=
  match env.seasonsResp with
  | none => []
  | some resp =>
    match resp.seasons with
    | none => []
    | some sds => (sds.map (seasonEvents env media)).flatten

/-- Modelled from the spec's words (§4.3): base title defaults to
"Episode n" when the remote title is absent, and a carried (non-empty)
part name is appended with the separator " - ". -/
def specEpisodeTitle (n : Int) (d : EpisodeRecord) : String :=
  let base :=
    match d.title with
    | some t => t
    | none => "Episode " ++ toString n
  if truthyStr d.part_name then base ++ " - " ++ d.part_name.getD "" else base

/-- Remote data well-formedness from the spec's data model (§3): season
numbers unique within a series, episode numbers unique within a
season. -/
def wfEnv (env : Env) : Prop :=
  (match env.seasonsResp with
    | some resp =>
      match resp.seasons with
      | some sds => (sds.filterMap SeasonRecord.season_number).Nodup
      | none => True
    | none => True) ∧
  ∀ n : Int,
    match env.episodesResp n with
    | some resp =>
      match resp.episodes with
      | some eps => (eps.filterMap EpisodeRecord.episode_number).Nodup
      | none => True
    | none => True

/-! ### Agreement up to asset-fetch outcomes (for fault isolation)

`imgAgree hA hB P Q` says the two image maps store the same bytes under
every url on which the two HTTP behaviours `hA` and `hB` agree; the
nested predicates lift this to episodes, seasons and the whole metadata
object, requiring every non-image field to be equal outright. -/

def imgAgree (hA hB : String → Option String)
    (P Q : List (String × String)) : Prop :=
  ∀ u, hA u = hB u → getA P u = getA Q u

def epAgree (hA hB : String → Option String) (e1 e2 : HostEpisode) : Prop :=
  e1.title = e2.title ∧ e1.summary = e2.summary ∧
  e1.originally_available_at = e2.originally_available_at ∧
  e1.duration = e2.duration ∧ imgAgree hA hB e1.thumbs e2.thumbs

def seasonAgree (hA hB : String → Option String) (s1 s2 : HostSeason) : Prop :=
  s1.title = s2.title ∧ s1.summary = s2.summary ∧
  imgAgree hA hB s1.posters s2.posters ∧
  List.Forall₂ (pairRel (epAgree hA hB)) s1.episodes s2.episodes

def metaAgree (hA hB : String → Option String) (m1 m2 : HostMetadata) : Prop :=
  m1.title = m2.title ∧ m1.summary = m2.summary ∧
  m1.originally_available_at = m2.originally_available_at ∧
  m1.studio = m2.studio ∧ m1.content_rating = m2.content_rating ∧
  m1.genres = m2.genres ∧
  imgAgree hA hB m1.posters m2.posters ∧
  imgAgree hA hB m1.banners m2.banners ∧
  imgAgree hA hB m1.art m2.art ∧
  List.Forall₂ (pairRel (seasonAgree hA hB)) m1.seasons m2.seasons

/-! ### Concrete update fixtures -/

def epMain : EpisodeRecord :=
  { episode_number := some 1, title := some "Main Card", part_name := none
    summary := none, air_date := none, duration_minutes := some 45
    thumb_url := some "turl" }

def epZeroDur : EpisodeRecord :=
  { episode_number := some 3, title := none, part_name := none
    summary := none, air_date := none, duration_minutes := some 0
    thumb_url := none }

def epPrelims : EpisodeRecord :=
  { episode_number := some 2, title := some "Prelims", part_name := some "pt1"
    summary := none, air_date := none, duration_minutes := none
    thumb_url := none }

def sdOne : SeasonRecord :=
  { season_number := some 1, title := none, summary := none
    poster_url := none }

def sdGhost : SeasonRecord :=
  { season_number := some 9, title := some "ghost", summary := none
    poster_url := some "gurl" }

def srFix : SeriesRecord :=
  { title := some "UFC", summary := none, year := some 5, studio := none
    content_rating := none, genres := some ["MMA", "Sports", "MMA"]
    poster_url := some "purl", banner_url := none, fanart_url := none }

def mediaOne : Media := { seasons := [(1, [1, 2, 3])] }

def envFix : Env :=
  { seriesResp := some (some srFix)
    seasonsResp := some { seasons := some [sdOne, sdGhost] }
    episodesResp := fun n =>
      if n = 1 then some { episodes := some [epMain, epZeroDur, epPrelims] }
      else none
    http := fun u => if u = "purl" then none else some ("bytes:" ++ u)
    parseDate := fun s => if s = "5-01-01" then none else some s }

/-- The fixture environment with every asset fetch succeeding (differs
from `envFix` only on the poster url "purl", whose fetch fails there). -/
def envGood : Env :=
  { envFix with http := fun u => some ("bytes:" ++ u) }

def hostEp77 : HostEpisode :=
  { title := none, summary := none, originally_available_at := none
    duration := some 77, thumbs := [] }

def seasonPrior : HostSeason :=
  { title := none, summary := none, posters := []
    episodes := [(3, hostEp77)] }

def metaPrior : HostMetadata :=
  { title := none, summary := none
    originally_available_at := some "1999-09-09", studio := none
    content_rating := none, genres := ["Old"], posters := [], banners := []
    art := [], seasons := [(1, seasonPrior)] }

/-! ## Helper lemmas -/

theorem getA_append_right {K V : Type} [DecidableEq K] (M N : List (K × V))
    (k : K) (h : getA M k = none) : getA (M ++ N) k = getA N k := by
  induction M with
  | nil => rfl
  | cons p r ih =>
    by_cases hp : p.1 = k
    · simp [getA, hp] at h
    · simp only [getA, hp, if_false] at h
      simp [getA, hp, ih h]

theorem getA_append_left {K V : Type} [DecidableEq K] (M N : List (K × V))
    (k : K) (w : V) (h : getA M k = some w) : getA (M ++ N) k = some w := by
  induction M with
  | nil => simp [getA] at h
  | cons p r ih =>
    by_cases hp : p.1 = k
    · simp only [getA, hp, if_true] at h
      simp [getA, hp, h]
    · simp only [getA, hp, if_false] at h
      simp [getA, hp, ih h]

theorem getA_replace_self {K V : Type} [DecidableEq K] (M : List (K × V))
    (k : K) (v : V) (h : (getA M k).isSome) :
    getA (M.map (fun p => if p.1 = k then (k, v) else p)) k = some v := by
  induction M with
  | nil => simp [getA] at h
  | cons p r ih =>
    by_cases hp : p.1 = k
    · simp [getA, hp]
    · simp only [getA, hp, if_false] at h
      simp [getA, hp, ih h]

theorem getA_replace_ne {K V : Type} [DecidableEq K] (M : List (K × V))
    (k k' : K) (v : V) (h : k ≠ k') :
    getA (M.map (fun p => if p.1 = k then (k, v) else p)) k' = getA M k' := by
  induction M with
  | nil => rfl
  | cons p r ih =>
    by_cases hp : p.1 = k
    · have hne : ¬(p.1 = k') := by rw [hp]; exact h
      rw [List.map_cons, if_pos hp]
      show getA ((k, v) :: _) k' = _
      unfold getA
      rw [if_neg h, if_neg hne, ih]
    · rw [List.map_cons, if_neg hp]
      show getA (p :: _) k' = _
      unfold getA
      by_cases hp' : p.1 = k'
      · rw [if_pos hp', if_pos hp']
      · rw [if_neg hp', if_neg hp', ih]

theorem getA_setA_self {K V : Type} [DecidableEq K] (M : List (K × V))
    (k : K) (v : V) : getA (setA M k v) k = some v := by
  unfold setA
  by_cases h : (getA M k).isSome
  · rw [if_pos h]
    exact getA_replace_self M k v h
  · rw [if_neg h]
    have hnone : getA M k = none := by
      cases hM : getA M k with
      | none => rfl
      | some w => rw [hM] at h; simp at h
    rw [getA_append_right M _ k hnone]
    simp [getA]

theorem getA_setA_ne {K V : Type} [DecidableEq K] (M : List (K × V))
    (k k' : K) (v : V) (h : k ≠ k') :
    getA (setA M k v) k' = getA M k' := by
  unfold setA
  by_cases hs : (getA M k).isSome
  · rw [if_pos hs]
    exact getA_replace_ne M k k' v h
  · rw [if_neg hs]
    cases hM : getA M k' with
    | some w => rw [getA_append_left M _ k' w hM]
    | none =>
      rw [getA_append_right M _ k' hM]
      simp [getA, fun hh : k = k' => h hh]

/-- Every pair stored at key `k` after `setA M k v` is exactly `(k, v)`. -/
theorem setA_pairs {K V : Type} [DecidableEq K] (M : List (K × V)) (k : K)
    (v : V) : ∀ p ∈ setA M k v, p.1 = k → p = (k, v) := by
  intro p hp hk
  unfold setA at hp
  by_cases hs : (getA M k).isSome
  · rw [if_pos hs] at hp
    rw [List.mem_map] at hp
    obtain ⟨q, _, hq⟩ := hp
    by_cases hqk : q.1 = k
    · simp [hqk] at hq; exact hq.symm
    · simp only [hqk, if_false] at hq
      rw [← hq] at hk
      exact absurd hk hqk
  · rw [if_neg hs] at hp
    rw [List.mem_append, List.mem_singleton] at hp
    cases hp with
    | inl hin =>
      exfalso
      apply hs
      clear hs
      induction M with
      | nil => simp at hin
      | cons q r ih =>
        rcases List.mem_cons.mp hin with rfl | hin2
        · simp [getA, hk]
        · by_cases hq : q.1 = k <;> simp [getA, hq]
          exact ih hin2
    | inr he => exact he

/-- A write of a value the map already uniformly stores at `k` is a no-op. -/
theorem setA_noop {K V : Type} [DecidableEq K] (M : List (K × V)) (k : K)
    (v : V) (hmem : (getA M k).isSome)
    (hunif : ∀ p ∈ M, p.1 = k → p = (k, v)) : setA M k v = M := by
  unfold setA
  rw [if_pos hmem]
  conv_rhs => rw [← List.map_id M]
  apply List.map_congr_left
  intro p hp
  by_cases hpk : p.1 = k
  · simp [hpk, (hunif p hp hpk).symm]
  · simp [hpk]

theorem stepA_none {I K V : Type} [DecidableEq K] (key : I → Option K)
    (tr : I → V → V) (d0 : V) (M : List (K × V)) (i : I) (h : key i = none) :
    stepA key tr d0 M i = M := by
  simp [stepA, h]

theorem stepA_some {I K V : Type} [DecidableEq K] (key : I → Option K)
    (tr : I → V → V) (d0 : V) (M : List (K × V)) (i : I) (k : K)
    (h : key i = some k) :
    stepA key tr d0 M i = setA M k (tr i ((getA M k).getD d0)) := by
  simp [stepA, h]

theorem foldStep_nil {I K V : Type} [DecidableEq K] (key : I → Option K)
    (tr : I → V → V) (d0 : V) (M : List (K × V)) :
    foldStep key tr d0 M [] = M := rfl

theorem foldStep_cons {I K V : Type} [DecidableEq K] (key : I → Option K)
    (tr : I → V → V) (d0 : V) (M : List (K × V)) (i : I) (l : List I) :
    foldStep key tr d0 M (i :: l) = foldStep key tr d0 (stepA key tr d0 M i) l := rfl

/-- A key the fold never writes is untouched. -/
theorem getA_foldStep_frame {I K V : Type} [DecidableEq K] (key : I → Option K)
    (tr : I → V → V) (d0 : V) (k0 : K) :
    ∀ (l : List I) (M : List (K × V)), k0 ∉ l.filterMap key →
      getA (foldStep key tr d0 M l) k0 = getA M k0 := by
  intro l
  induction l with
  | nil => intro M _; rfl
  | cons i l ih =>
    intro M hk
    cases hki : key i with
    | none =>
      rw [List.filterMap_cons, hki] at hk
      rw [foldStep_cons, stepA_none key tr d0 M i hki]
      exact ih M hk
    | some k =>
      rw [List.filterMap_cons, hki] at hk
      rw [List.mem_cons, not_or] at hk
      rw [foldStep_cons, stepA_some key tr d0 M i k hki,
        ih _ hk.2, getA_setA_ne _ _ _ _ (fun hh => hk.1 hh.symm)]

theorem uniformAt_setA_self {K V : Type} [DecidableEq K] (M : List (K × V))
    (k : K) (v : V) : uniformAt (setA M k v) k v :=
  ⟨by rw [getA_setA_self]; rfl, setA_pairs M k v⟩

theorem setA_pairs_subset {K V : Type} [DecidableEq K] (M : List (K × V))
    (k k0 : K) (v : V) (h : k0 ≠ k) :
    ∀ p ∈ setA M k v, p.1 = k0 → p ∈ M := by
  intro p hp hpk
  unfold setA at hp
  by_cases hs : (getA M k).isSome
  · rw [if_pos hs, List.mem_map] at hp
    obtain ⟨q, hq, hqe⟩ := hp
    by_cases hqk : q.1 = k
    · rw [if_pos hqk] at hqe
      rw [← hqe] at hpk
      exact absurd hpk.symm h
    · rw [if_neg hqk] at hqe
      rw [← hqe]; exact hq
  · rw [if_neg hs, List.mem_append, List.mem_singleton] at hp
    cases hp with
    | inl hin => exact hin
    | inr he =>
      rw [he] at hpk
      exact absurd hpk.symm h

theorem uniformAt_setA_ne {K V : Type} [DecidableEq K] (M : List (K × V))
    (k k0 : K) (v v0 : V) (h : k0 ≠ k) (hu : uniformAt M k0 v0) :
    uniformAt (setA M k v) k0 v0 := by
  refine ⟨?_, ?_⟩
  · rw [getA_setA_ne M k k0 v (fun hh => h hh.symm)]
    exact hu.1
  · intro p hp hpk
    exact hu.2 p (setA_pairs_subset M k k0 v h p hp hpk) hpk

theorem uniformAt_foldStep {I K V : Type} [DecidableEq K] (key : I → Option K)
    (tr : I → V → V) (d0 : V) (k0 : K) (v0 : V) :
    ∀ (l : List I) (M : List (K × V)), k0 ∉ l.filterMap key →
      uniformAt M k0 v0 → uniformAt (foldStep key tr d0 M l) k0 v0 := by
  intro l
  induction l with
  | nil => intro M _ hu; exact hu
  | cons i l ih =>
    intro M hk hu
    cases hki : key i with
    | none =>
      rw [List.filterMap_cons, hki] at hk
      rw [foldStep_cons, stepA_none key tr d0 M i hki]
      exact ih M hk hu
    | some k =>
      rw [List.filterMap_cons, hki] at hk
      rw [List.mem_cons, not_or] at hk
      rw [foldStep_cons, stepA_some key tr d0 M i k hki]
      exact ih _ hk.2 (uniformAt_setA_ne M k k0 _ v0 hk.1 hu)

/-- Running the same keyed fold a second time changes nothing, provided
the per-record transforms are idempotent and the record keys are
distinct. -/
theorem foldStep_idem {I K V : Type} [DecidableEq K] (key : I → Option K)
    (tr : I → V → V) (d0 : V) (hidem : ∀ i v, tr i (tr i v) = tr i v) :
    ∀ (l : List I), (l.filterMap key).Nodup → ∀ M : List (K × V),
      foldStep key tr d0 (foldStep key tr d0 M l) l = foldStep key tr d0 M l := by
  intro l
  induction l with
  | nil => intro _ M; rfl
  | cons i l ih =>
    intro hnd M
    cases hki : key i with
    | none =>
      rw [List.filterMap_cons, hki] at hnd
      rw [foldStep_cons, foldStep_cons, stepA_none key tr d0 M i hki,
        stepA_none key tr d0 _ i hki]
      exact ih hnd _
    | some k =>
      rw [List.filterMap_cons, hki] at hnd
      rw [List.nodup_cons] at hnd
      obtain ⟨hkn, hnd2⟩ := hnd
      rw [foldStep_cons, foldStep_cons, stepA_some key tr d0 M i k hki]
      have hg : getA (foldStep key tr d0 (setA M k (tr i ((getA M k).getD d0))) l) k =
          some (tr i ((getA M k).getD d0)) := by
        rw [getA_foldStep_frame key tr d0 k l _ hkn, getA_setA_self]
      have huni : uniformAt
          (foldStep key tr d0 (setA M k (tr i ((getA M k).getD d0))) l) k
          (tr i ((getA M k).getD d0)) :=
        uniformAt_foldStep key tr d0 k _ l _ hkn (uniformAt_setA_self M k _)
      have hstep2 : stepA key tr d0
          (foldStep key tr d0 (setA M k (tr i ((getA M k).getD d0))) l) i =
          foldStep key tr d0 (setA M k (tr i ((getA M k).getD d0))) l := by
        rw [stepA_some key tr d0 _ i k hki, hg, Option.getD_some,
          hidem i ((getA M k).getD d0)]
        exact setA_noop _ k _ huni.1 huni.2
      rw [hstep2]
      exact ih hnd2 _

/-- An observation of the entry at one key (read with the creation
default) is preserved by the fold, when the transforms writing that key
preserve it. -/
theorem foldStep_obs {I K V W : Type} [DecidableEq K] (key : I → Option K)
    (tr : I → V → V) (d0 : V) (f : V → W) (k0 : K)
    (hf : ∀ i v, key i = some k0 → f (tr i v) = f v) :
    ∀ (l : List I) (M : List (K × V)),
      f ((getA (foldStep key tr d0 M l) k0).getD d0) =
        f ((getA M k0).getD d0) := by
  intro l
  induction l with
  | nil => intro M; rfl
  | cons i l ih =>
    intro M
    cases hki : key i with
    | none =>
      rw [foldStep_cons, stepA_none key tr d0 M i hki]
      exact ih M
    | some k =>
      rw [foldStep_cons, stepA_some key tr d0 M i k hki]
      by_cases hk : k = k0
      · subst hk
        rw [ih _, getA_setA_self, Option.getD_some, hf i _ hki]
      · rw [ih _, getA_setA_ne _ _ _ _ hk]

theorem getA_forall₂ {K V : Type} [DecidableEq K] (R : V → V → Prop)
    {M N : List (K × V)} (h : List.Forall₂ (pairRel R) M N) (k : K) :
    (getA M k = none ∧ getA N k = none) ∨
      ∃ a b, getA M k = some a ∧ getA N k = some b ∧ R a b := by
  induction h with
  | nil => left; exact ⟨rfl, rfl⟩
  | @cons p q M' N' hpq hrest ih =>
    obtain ⟨hfst, hR⟩ := hpq
    by_cases hk : p.1 = k
    · right
      refine ⟨p.2, q.2, ?_, ?_, hR⟩
      · simp [getA, hk]
      · have : q.1 = k := by rw [← hfst]; exact hk
        simp [getA, this]
    · have hq : ¬(q.1 = k) := by rw [← hfst]; exact hk
      show (getA (p :: M') k = none ∧ getA (q :: N') k = none) ∨ _
      unfold getA
      rw [if_neg hk, if_neg hq]
      exact ih

theorem setA_forall₂ {K V : Type} [DecidableEq K] (R : V → V → Prop)
    {M N : List (K × V)} (h : List.Forall₂ (pairRel R) M N) (k : K)
    {v w : V} (hvw : R v w) :
    List.Forall₂ (pairRel R) (setA M k v) (setA N k w) := by
  have hsome : (getA M k).isSome = (getA N k).isSome := by
    rcases getA_forall₂ R h k with ⟨h1, h2⟩ | ⟨a, b, h1, h2, _⟩ <;>
      simp [h1, h2]
  unfold setA
  by_cases hs : (getA M k).isSome
  · rw [if_pos hs, if_pos (hsome ▸ hs)]
    clear hs hsome
    induction h with
    | nil => exact List.Forall₂.nil
    | @cons p q M' N' hpq hrest ih =>
      obtain ⟨hfst, hR⟩ := hpq
      rw [List.map_cons, List.map_cons]
      by_cases hpk : p.1 = k
      · have hqk : q.1 = k := by rw [← hfst]; exact hpk
        rw [if_pos hpk, if_pos hqk]
        exact List.Forall₂.cons ⟨rfl, hvw⟩ ih
      · have hqk : ¬(q.1 = k) := by rw [← hfst]; exact hpk
        rw [if_neg hpk, if_neg hqk]
        exact List.Forall₂.cons ⟨hfst, hR⟩ ih
  · rw [if_neg hs, if_neg (hsome ▸ hs)]
    exact List.rel_append h (List.Forall₂.cons ⟨rfl, hvw⟩ List.Forall₂.nil)

/-- Two runs of the keyed fold with pointwise-related transform families
produce pointwise-related maps. -/
theorem foldStep_forall₂ {I K V : Type} [DecidableEq K] (key : I → Option K)
    (tr tr' : I → V → V) (d0 : V) (R : V → V → Prop)
    (hR : ∀ i v w, R v w → R (tr i v) (tr' i w)) (hd0 : R d0 d0) :
    ∀ (l : List I) (M N : List (K × V)), List.Forall₂ (pairRel R) M N →
      List.Forall₂ (pairRel R) (foldStep key tr d0 M l)
        (foldStep key tr' d0 N l) := by
  intro l
  induction l with
  | nil => intro M N h; exact h
  | cons i l ih =>
    intro M N h
    cases hki : key i with
    | none =>
      rw [foldStep_cons, foldStep_cons, stepA_none key tr d0 M i hki,
        stepA_none key tr' d0 N i hki]
      exact ih M N h
    | some k =>
      rw [foldStep_cons, foldStep_cons, stepA_some key tr d0 M i k hki,
        stepA_some key tr' d0 N i k hki]
      rcases getA_forall₂ R h k with ⟨h1, h2⟩ | ⟨a, b, h1, h2, hab⟩
      · rw [h1, h2]
        exact ih _ _ (setA_forall₂ R h k (hR i d0 d0 hd0))
      · rw [h1, h2]
        exact ih _ _ (setA_forall₂ R h k (hR i a b hab))

theorem rankedFrom_length (q : String) :
    ∀ (l : List SearchEntry) (i : Nat), (rankedFrom q i l).length = l.length := by
  intro l
  induction l with
  | nil => intro i; rfl
  | cons e r ih => intro i; simp [rankedFrom, ih]

theorem searchLoop_eq (q : String) :
    ∀ (l : List SearchEntry) (i : Nat),
      searchLoop q i l =
        rankedFrom q i (l.takeWhile (fun e => decide (e.title ≠ JStr.null))) := by
  intro l
  induction l with
  | nil => intro i; rfl
  | cons e r ih =>
    intro i
    cases he : e.title with
    | null => simp [searchLoop, procEntry, he, List.takeWhile_cons, rankedFrom]
    | missing =>
      simp only [searchLoop, procEntry, he, List.takeWhile_cons]
      simp [rankedFrom, ih, he]
    | str s =>
      simp only [searchLoop, procEntry, he, List.takeWhile_cons]
      simp [rankedFrom, ih, he]

/-! ### Decomposition of the traced functions into pure effect + events -/

theorem applyEpisode_eq (env : Env) (n : Int) (d : EpisodeRecord)
    (e : HostEpisode) :
    applyEpisode env n d e =
      ({ title := some (codeEpisodeTitle n d)
         summary := some (d.summary.getD "")
         originally_available_at := airOp env d e.originally_available_at
         duration := durOp d e.duration
         thumbs := attachOp env d.thumb_url e.thumbs },
       assetEvents d.thumb_url) := by
  simp only [applyEpisode, codeEpisodeTitle, airOp, durOp, attachOp, assetEvents]
  cases truthyStr d.air_date <;>
    cases env.parseDate (d.air_date.getD "") <;>
    cases truthyInt d.duration_minutes <;>
    cases truthyStr d.thumb_url <;>
    cases env.http (d.thumb_url.getD "") <;>
    simp

theorem epFold_eq (env : Env) (media : Media) (n : Int) :
    ∀ (eps : List EpisodeRecord) (s : HostSeason) (tr0 : List Event),
      eps.foldl (epLoopStep env media n) (s, tr0) =
      ({ s with episodes := foldStep (epKey media n) (trEp env) emptyHostEpisode s.episodes eps },
        tr0 ++ (eps.map (fun d =>
          match epKey media n d with
          | some _ => assetEvents d.thumb_url
          | none => [])).flatten) := by
  intro eps
  induction eps with
  | nil => intro s tr0; simp [foldStep_nil]
  | cons d eps ih =>
    intro s tr0
    rw [List.foldl_cons]
    cases hnum : d.episode_number with
    | none =>
      have hkey : epKey media n d = none := by simp [epKey, hnum]
      have hstep : epLoopStep env media n (s, tr0) d = (s, tr0) := by
        simp [epLoopStep, hnum]
      rw [hstep, ih s tr0, foldStep_cons, stepA_none _ _ _ _ _ hkey]
      simp [hkey]
    | some k =>
      have hget : d.episode_number.getD 0 = k := by rw [hnum]; rfl
      cases hc : (knownEpisodes media n).contains k with
      | false =>
        have hnmem : k ∉ knownEpisodes media n := by simpa using hc
        have hkey : epKey media n d = none := by simp [epKey, hnum, hnmem]
        have hstep : epLoopStep env media n (s, tr0) d = (s, tr0) := by
          simp [epLoopStep, hnum, hnmem]
        rw [hstep, ih s tr0, foldStep_cons, stepA_none _ _ _ _ _ hkey]
        simp [hkey]
      | true =>
        have hmem : k ∈ knownEpisodes media n := by simpa using hc
        have hkey : epKey media n d = some k := by simp [epKey, hnum, hmem]
        have hstep : epLoopStep env media n (s, tr0) d =
            ({ s with episodes := setA s.episodes k (trEp env d ((getA s.episodes k).getD emptyHostEpisode)) }, tr0 ++ assetEvents d.thumb_url) := by
          simp only [epLoopStep, hnum]
          rw [if_pos hc]
          unfold trEp
          rw [hget, applyEpisode_eq env k d]
        rw [hstep, ih _ _, foldStep_cons, stepA_some _ _ _ _ _ _ hkey]
        simp [hkey]

theorem update_episodes_eq (env : Env) (media : Media) (n : Int)
    (s : HostSeason) :
    update_episodes env media n s =
      ({ s with episodes := episodesPart env media n s.episodes },
       episodesEvents env media n) := by
  cases hr : env.episodesResp n with
  | none => simp [update_episodes, episodesPart, episodesEvents, hr]
  | some resp =>
    cases hre : resp.episodes with
    | none => simp [update_episodes, episodesPart, episodesEvents, hr, hre]
    | some eps =>
      simp only [update_episodes, episodesPart, episodesEvents, hr, hre]
      rw [epFold_eq env media n eps s [Event.fetchEpisodes n]]
      rfl

theorem applySeason_eq (env : Env) (media : Media) (n : Int)
    (sd : SeasonRecord) (s : HostSeason) :
    applySeason env media n sd s =
      ({ title := some (sd.title.getD ("Season " ++ toString n))
         summary := some (sd.summary.getD "")
         posters := attachOp env sd.poster_url s.posters
         episodes := episodesPart env media n s.episodes },
       assetEvents sd.poster_url ++ episodesEvents env media n) := by
  simp only [applySeason, attachOp, assetEvents]
  cases truthyStr sd.poster_url <;>
    cases env.http (sd.poster_url.getD "") <;>
    simp [update_episodes_eq]

set_option maxHeartbeats 2000000 in
theorem seriesApply_eq (env : Env) (sr : SeriesRecord) (m : HostMetadata) :
    seriesApply env sr m =
      ({ m with
          title := sr.title
          summary := sr.summary
          originally_available_at :=
            if truthyInt sr.year then
              env.parseDate (toString (sr.year.getD 0) ++ "-01-01")
            else none
          studio := sr.studio
          content_rating := sr.content_rating
          genres := (sr.genres.getD []).foldl addGenre []
          posters := attachOp env sr.poster_url m.posters
          banners := attachOp env sr.banner_url m.banners
          art := attachOp env sr.fanart_url m.art },
       seriesEvents sr) := by
  simp only [seriesApply, seriesEvents, attachOp, assetEvents]
  cases truthyInt sr.year <;>
    cases env.parseDate (toString (sr.year.getD 0) ++ "-01-01") <;>
    cases truthyStr sr.poster_url <;>
    cases env.http (sr.poster_url.getD "") <;>
    cases truthyStr sr.banner_url <;>
    cases env.http (sr.banner_url.getD "") <;>
    cases truthyStr sr.fanart_url <;>
    cases env.http (sr.fanart_url.getD "") <;>
    simp

theorem seasonsFold_eq (env : Env) (media : Media) :
    ∀ (sds : List SeasonRecord) (m : HostMetadata) (tr0 : List Event),
      sds.foldl (seasonStep env media) (m, tr0) =
      ({ m with seasons := foldStep (seasonKey media) (trSeason env media) emptyHostSeason m.seasons sds },
        tr0 ++ (sds.map (seasonEvents env media)).flatten) := by
  intro sds
  induction sds with
  | nil => intro m tr0; simp [foldStep_nil]
  | cons sd sds ih =>
    intro m tr0
    rw [List.foldl_cons]
    cases hnum : sd.season_number with
    | none =>
      have hkey : seasonKey media sd = none := by simp [seasonKey, hnum]
      have hstep : seasonStep env media (m, tr0) sd = (m, tr0) := by
        simp [seasonStep, hnum]
      rw [hstep, ih m tr0, foldStep_cons, stepA_none _ _ _ _ _ hkey]
      simp [seasonEvents, hkey]
    | some k =>
      have hget : sd.season_number.getD 0 = k := by rw [hnum]; rfl
      cases hc : hasSeason media k with
      | false =>
        have hkey : seasonKey media sd = none := by simp [seasonKey, hnum, hc]
        have hstep : seasonStep env media (m, tr0) sd = (m, tr0) := by
          simp [seasonStep, hnum, hc]
        rw [hstep, ih m tr0, foldStep_cons, stepA_none _ _ _ _ _ hkey]
        simp [seasonEvents, hkey]
      | true =>
        have hkey : seasonKey media sd = some k := by simp [seasonKey, hnum, hc]
        have hstep : seasonStep env media (m, tr0) sd =
            ({ m with seasons := setA m.seasons k (trSeason env media sd ((getA m.seasons k).getD emptyHostSeason)) }, tr0 ++ (assetEvents sd.poster_url ++ episodesEvents env media k)) := by
          simp only [seasonStep, hnum]
          rw [if_pos hc]
          unfold trSeason
          rw [hget, applySeason_eq env media k sd]
        rw [hstep, ih _ _, foldStep_cons, stepA_some _ _ _ _ _ _ hkey]
        simp [seasonEvents, hkey]

theorem update_eq (env : Env) (media : Media) (m : HostMetadata)
    (sopt : Option SeriesRecord) (h : env.seriesResp = some sopt) :
    update env media m =
      ({ seriesPart env sopt m with
          seasons := seasonsPart env media (seriesPart env sopt m).seasons },
       Event.fetchSeries :: seriesPartEvents sopt ++ [Event.fetchSeasons] ++
         seasonsPartEvents env media) := by
  unfold update
  rw [h]
  cases sopt with
  | none =>
    simp only [seriesPart, seriesPartEvents]
    cases hs : env.seasonsResp with
    | none => simp [seasonsPart, seasonsPartEvents, hs]
    | some resp =>
      cases hss : resp.seasons with
      | none => simp [seasonsPart, seasonsPartEvents, hs, hss]
      | some sds =>
        simp only [seasonsPart, seasonsPartEvents, hs, hss]
        rw [seasonsFold_eq env media sds m []]
        simp
  | some sr =>
    by_cases ht : seriesTruthy sr
    · have hse : (seriesApply env sr m).2 = seriesEvents sr := by
        rw [seriesApply_eq]
      simp only [seriesPart, seriesPartEvents, seriesApplyM]
      rw [if_pos ht, if_pos ht, if_pos ht]
      cases hs : env.seasonsResp with
      | none => simp [seasonsPart, seasonsPartEvents, hs, hse]
      | some resp =>
        cases hss : resp.seasons with
        | none => simp [seasonsPart, seasonsPartEvents, hs, hss, hse]
        | some sds =>
          simp only [seasonsPart, seasonsPartEvents, hs, hss]
          rw [seasonsFold_eq env media sds ((seriesApply env sr m).1) []]
          simp [hse]
    · simp only [seriesPart, seriesPartEvents]
      rw [if_neg ht, if_neg ht, if_neg ht]
      cases hs : env.seasonsResp with
      | none => simp [seasonsPart, seasonsPartEvents, hs]
      | some resp =>
        cases hss : resp.seasons with
        | none => simp [seasonsPart, seasonsPartEvents, hs, hss]
        | some sds =>
          simp only [seasonsPart, seasonsPartEvents, hs, hss]
          rw [seasonsFold_eq env media sds m []]
          simp

/-! ## Claim C3 -/

/-- Claim C3 as stated is refuted: a results list of two entries whose
second entry carries a null `title` yields one candidate, not
`min 2 10 = 2` — the null title raises inside the loop and the exception
is caught at the top of `search`. -/
theorem search_count_claim_refuted :
    (search "q" (some { results := some [eFoo, eNull] })).length ≠
      min ([eFoo, eNull] : List SearchEntry).length 10 := by decide

/-- Claim C3, amended: for every search response whose first
`min(k, 10)` results all carry non-null titles, `search` produces
`min(k, 10)` candidates, in response order (the first 10 when `k > 10`),
and the candidate built at zero-based index `i` has score
`max 0 (100 - 5*i)` — except that a candidate whose title (an absent
title read as the empty string, as the code defaults it) equals the
query case-insensitively has score 100 regardless of its position. -/
theorem search_ranking_amended (q : String) (entries : List SearchEntry)
    (h : ∀ e ∈ entries.take 10, e.title ≠ JStr.null) :
    search q (some { results := some entries }) = rankedFrom q 0 (entries.take 10) ∧
    (search q (some { results := some entries })).length = min entries.length 10 ∧
    ∀ i : Nat, i < 10 → ∀ e : SearchEntry,
      (candidateOf q i e).score =
        if lowerStr (defaultedTitle e.title) = lowerStr q then (100 : Int)
        else max 0 (100 - 5 * (i : Int)) := by
  have htw : (entries.take 10).takeWhile (fun e => decide (e.title ≠ JStr.null)) =
      entries.take 10 := by
    rw [List.takeWhile_eq_self_iff]
    intro x hx
    simpa using h x hx
  have h1 : search q (some { results := some entries }) =
      rankedFrom q 0 (entries.take 10) := by
    show searchLoop q 0 (entries.take 10) = _
    rw [searchLoop_eq, htw]
  refine ⟨h1, ?_, ?_⟩
  · rw [h1, rankedFrom_length, List.length_take, Nat.min_comm]
  · intro i hi e
    show (if lowerStr (defaultedTitle e.title) = lowerStr q then (100 : Int)
        else 100 - 5 * (i : Int)) = _
    have h9 : (0 : Int) ≤ 100 - 5 * (i : Int) := by omega
    rw [max_eq_right h9]

/-- Witness for the amended C3 at a concrete response of two entries,
the first an exact case-insensitive match of the query. -/
theorem search_ranking_amended_witness :
    (∀ e ∈ ([eFoo, eBar] : List SearchEntry).take 10, e.title ≠ JStr.null) ∧
    (search "foo" (some { results := some [eFoo, eBar] }) =
        rankedFrom "foo" 0 (([eFoo, eBar] : List SearchEntry).take 10) ∧
      (search "foo" (some { results := some [eFoo, eBar] })).length =
        min ([eFoo, eBar] : List SearchEntry).length 10 ∧
      ∀ i : Nat, i < 10 → ∀ e : SearchEntry,
        (candidateOf "foo" i e).score =
          if lowerStr (defaultedTitle e.title) = lowerStr "foo" then (100 : Int)
          else max 0 (100 - 5 * (i : Int))) :=
  ⟨by decide, search_ranking_amended "foo" [eFoo, eBar] (by decide)⟩

/-! ## Claim C7 -/

/-- Claim C7: `search` never raises to the caller — a raising fetch
gives the empty sequence, a response without a `results` key gives the
empty sequence, and in general the output is exactly the candidates
appended before the first raising entry of the first ten results. -/
theorem search_degrades_to_prior_appends (q : String) :
    search q none = [] ∧
    search q (some { results := none }) = [] ∧
    ∀ entries : List SearchEntry,
      search q (some { results := some entries }) =
        rankedFrom q 0
          ((entries.take 10).takeWhile (fun e => decide (e.title ≠ JStr.null))) := by
  refine ⟨rfl, rfl, fun entries => ?_⟩
  show searchLoop q 0 (entries.take 10) = _
  exact searchLoop_eq q (entries.take 10) 0

/-! ## Claim C10 -/

/-- Claim C10: a well-formed response whose second entry carries a null
`title` value makes the case-insensitive comparison raise; the exception
is caught at the top of `search`, only the candidate appended before the
offending entry is returned, and the entries after it are silently
dropped — strictly fewer than `min(k, 10)` candidates. -/
theorem search_null_title_truncates :
    search "baz" (some { results := some [eFoo, eNull, eBar] }) =
      [candidateOf "baz" 0 eFoo] ∧
    (search "baz" (some { results := some [eFoo, eNull, eBar] })).length <
      min ([eFoo, eNull, eBar] : List SearchEntry).length 10 := by decide


/-! ### Frame helpers -/

theorem seriesPart_seasons (env : Env) (sopt : Option SeriesRecord)
    (m : HostMetadata) : (seriesPart env sopt m).seasons = m.seasons := by
  cases sopt with
  | none => rfl
  | some sr =>
    by_cases ht : seriesTruthy sr
    · simp only [seriesPart]
      rw [if_pos ht]
      simp only [seriesApplyM]
      rw [seriesApply_eq]
    · simp only [seriesPart]
      rw [if_neg ht]

/-! ## Claim C2 -/

/-- Claim C2: every episode written stores the title composed as the
spec states it — the remote title when present, else "Episode n", with a
carried (non-empty) part name appended after " - ".  The first conjunct
proves the code's write equal to the spec-side composition for every
record; the remaining conjuncts check the spec's three examples, both on
the composition rule and through the full `update` pipeline. -/
theorem episode_title_composition :
    (∀ (env : Env) (n : Int) (d : EpisodeRecord) (e : HostEpisode),
      ((applyEpisode env n d e).1).title = some (specEpisodeTitle n d)) ∧
    specEpisodeTitle 1 epMain = "Main Card" ∧
    specEpisodeTitle 3 epZeroDur = "Episode 3" ∧
    specEpisodeTitle 2 epPrelims = "Prelims - pt1" ∧
    (episodeEntry (update envFix mediaOne metaPrior).1 1 1).map
      (fun e => e.title) = some (some "Main Card") ∧
    (episodeEntry (update envFix mediaOne metaPrior).1 1 3).map
      (fun e => e.title) = some (some "Episode 3") ∧
    (episodeEntry (update envFix mediaOne metaPrior).1 1 2).map
      (fun e => e.title) = some (some "Prelims - pt1") := by
  refine ⟨fun env n d e => ?_, by decide⟩
  rw [applyEpisode_eq]
  show some (codeEpisodeTitle n d) = some (specEpisodeTitle n d)
  unfold codeEpisodeTitle specEpisodeTitle
  cases d.title <;> rfl

/-! ## Claim C6 -/

/-- Claim C6 as stated is refuted: the remote series carries year 5, the
synthesized date "5-01-01" fails to parse, and the prior value of
`originally_available_at` was `some "1999-09-09"` — yet after the update
the field is `none`, because the code clears it unconditionally before
attempting the parse; it is not left at its prior value. -/
theorem series_year_prior_value_refuted :
    metaPrior.originally_available_at = some "1999-09-09" ∧
    srFix.year = some 5 ∧
    envFix.parseDate "5-01-01" = none ∧
    (update envFix mediaOne metaPrior).1.originally_available_at = none := by
  decide

/-- Claim C6, amended: for a truthy series record carrying a nonzero
year, `originally_available_at` ends as exactly the parse result of the
synthesized "year-01-01" string — January 1 of that year when the parse
succeeds, and cleared to `none` (not the prior value) when the parse
raises; the failure is swallowed, never propagated. -/
theorem series_year_amended (env : Env) (media : Media) (m : HostMetadata)
    (sr : SeriesRecord) (y : Int) (h : env.seriesResp = some (some sr))
    (hy : sr.year = some y) (hy0 : y ≠ 0) :
    (update env media m).1.originally_available_at =
      env.parseDate (toString y ++ "-01-01") := by
  have hne : sr ≠ emptySeriesRecord := by
    intro he
    rw [he] at hy
    simp [emptySeriesRecord] at hy
  have ht : seriesTruthy sr = true := decide_eq_true hne
  rw [update_eq env media m (some sr) h]
  show (seriesPart env (some sr) m).originally_available_at = _
  simp only [seriesPart]
  rw [if_pos ht]
  simp only [seriesApplyM]
  rw [seriesApply_eq]
  show (if truthyInt sr.year then
      env.parseDate (toString (sr.year.getD 0) ++ "-01-01") else none) = _
  have hty : truthyInt sr.year = true := by simp [truthyInt, hy, hy0]
  rw [if_pos hty, hy]
  rfl

/-- Witness for the amended C6 at the concrete fixture (year 5, failing
parse, prior value present). -/
theorem series_year_amended_witness :
    (envFix.seriesResp = some (some srFix) ∧ srFix.year = some 5 ∧
      (5 : Int) ≠ 0) ∧
    (update envFix mediaOne metaPrior).1.originally_available_at =
      envFix.parseDate (toString (5 : Int) ++ "-01-01") :=
  ⟨by decide,
    series_year_amended envFix mediaOne metaPrior srFix 5 (by decide)
      (by decide) (by decide)⟩

/-! ## Claim C8 -/

/-- Claim C8: when the series fetch yields a null record, no
series-level field is modified, the seasons fetch is still issued, and
the season/episode sync proceeds exactly as it would with any series
record — all without raising to the caller (`update` is total). -/
theorem null_series_frame (env : Env) (media : Media) (m : HostMetadata)
    (h : env.seriesResp = some none) :
    (update env media m).1.title = m.title ∧
    (update env media m).1.summary = m.summary ∧
    (update env media m).1.originally_available_at =
      m.originally_available_at ∧
    (update env media m).1.studio = m.studio ∧
    (update env media m).1.content_rating = m.content_rating ∧
    (update env media m).1.genres = m.genres ∧
    (update env media m).1.posters = m.posters ∧
    (update env media m).1.banners = m.banners ∧
    (update env media m).1.art = m.art ∧
    Event.fetchSeasons ∈ (update env media m).2 ∧
    ∀ sr : SeriesRecord,
      (update { env with seriesResp := some (some sr) } media m).1.seasons =
        (update env media m).1.seasons := by
  rw [update_eq env media m none h]
  refine ⟨rfl, rfl, rfl, rfl, rfl, rfl, rfl, rfl, rfl, ?_, ?_⟩
  · simp
  · intro sr
    rw [update_eq { env with seriesResp := some (some sr) } media m (some sr) rfl]
    show seasonsPart { env with seriesResp := some (some sr) } media
        (seriesPart { env with seriesResp := some (some sr) } (some sr) m).seasons =
      seasonsPart env media (seriesPart env none m).seasons
    rw [seriesPart_seasons, seriesPart_seasons]
    rfl

/-- Witness for C8 at a concrete environment whose series fetch yields a
null record. -/
theorem null_series_frame_witness :
    ({ envFix with seriesResp := some none } : Env).seriesResp = some none ∧
    ((update { envFix with seriesResp := some none } mediaOne metaPrior).1.genres =
        metaPrior.genres ∧
      Event.fetchSeasons ∈
        (update { envFix with seriesResp := some none } mediaOne metaPrior).2) :=
  ⟨rfl,
    ⟨(null_series_frame { envFix with seriesResp := some none } mediaOne
        metaPrior rfl).2.2.2.2.2.1,
      (null_series_frame { envFix with seriesResp := some none } mediaOne
        metaPrior rfl).2.2.2.2.2.2.2.2.2.1⟩⟩

/-! ## Claim C9 -/

/-- Claim C9 as stated is refuted: the remote record for episode 3
carries `duration_minutes = 0`, the host episode's prior duration is 77,
and after the full update the stored duration is still 77 — not
`0 * 60 * 1000` — because the code guards the write with Python
truthiness and zero is falsy. -/
theorem duration_zero_claim_refuted :
    epZeroDur.duration_minutes = some 0 ∧
    (episodeEntry (update envFix mediaOne metaPrior).1 1 3).map
      (fun e => e.duration) = some (some 77) ∧
    some (some ((0 : Int) * 60 * 1000)) ≠ some (some (77 : Int)) := by
  decide

/-- Claim C9, amended: an episode record carrying a nonzero
`duration_minutes` stores exactly `minutes * 60 * 1000` milliseconds; a
zero or absent `duration_minutes` leaves the host's duration field
unmodified. -/
theorem duration_conversion_amended (env : Env) (n : Int) (d : EpisodeRecord)
    (e : HostEpisode) :
    (∀ mins : Int, d.duration_minutes = some mins → mins ≠ 0 →
      ((applyEpisode env n d e).1).duration = some (mins * 60 * 1000)) ∧
    (truthyInt d.duration_minutes = false →
      ((applyEpisode env n d e).1).duration = e.duration) := by
  rw [applyEpisode_eq]
  constructor
  · intro mins hm h0
    show durOp d e.duration = _
    simp [durOp, truthyInt, hm, h0]
  · intro hf
    show durOp d e.duration = _
    simp [durOp, hf]

/-- Witness for the amended C9: 45 remote minutes store 2,700,000
milliseconds. -/
theorem duration_conversion_amended_witness :
    (epMain.duration_minutes = some 45 ∧ (45 : Int) ≠ 0) ∧
    ((applyEpisode envFix 1 epMain emptyHostEpisode).1).duration =
      some (45 * 60 * 1000) :=
  ⟨by decide,
    (duration_conversion_amended envFix 1 epMain emptyHostEpisode).1 45
      (by decide) (by decide)⟩


/-! ### Key and event helpers -/

theorem seasonKey_hasSeason (media : Media) (sd : SeasonRecord) (k : Int)
    (h : seasonKey media sd = some k) : hasSeason media k = true := by
  unfold seasonKey at h
  cases hnum : sd.season_number with
  | none => simp only [hnum] at h; exact Option.noConfusion h
  | some n' =>
    simp only [hnum] at h
    by_cases hs : hasSeason media n' = true
    · rw [if_pos hs] at h
      cases h
      exact hs
    · rw [if_neg hs] at h
      exact Option.noConfusion h

theorem epKey_contains (media : Media) (n : Int) (d : EpisodeRecord) (k : Int)
    (h : epKey media n d = some k) :
    (knownEpisodes media n).contains k = true := by
  unfold epKey at h
  cases hnum : d.episode_number with
  | none => simp only [hnum] at h; exact Option.noConfusion h
  | some k' =>
    simp only [hnum] at h
    by_cases hc : (knownEpisodes media n).contains k' = true
    · rw [if_pos hc] at h
      cases h
      exact hc
    · rw [if_neg hc] at h
      exact Option.noConfusion h

theorem mem_filterMap_seasonKey (media : Media) (sds : List SeasonRecord)
    (k : Int) (h : k ∈ sds.filterMap (seasonKey media)) :
    hasSeason media k = true := by
  rw [List.mem_filterMap] at h
  obtain ⟨sd, _, hk⟩ := h
  exact seasonKey_hasSeason media sd k hk

theorem mem_filterMap_epKey (media : Media) (n : Int)
    (eps : List EpisodeRecord) (k : Int)
    (h : k ∈ eps.filterMap (epKey media n)) :
    (knownEpisodes media n).contains k = true := by
  rw [List.mem_filterMap] at h
  obtain ⟨d, _, hk⟩ := h
  exact epKey_contains media n d k hk

theorem seasonKey_number (media : Media) (sd : SeasonRecord) (k : Int)
    (h : seasonKey media sd = some k) : sd.season_number = some k := by
  unfold seasonKey at h
  cases hnum : sd.season_number with
  | none => simp only [hnum] at h; exact Option.noConfusion h
  | some n' =>
    simp only [hnum] at h
    by_cases hs : hasSeason media n' = true
    · rw [if_pos hs] at h
      exact h
    · rw [if_neg hs] at h
      exact Option.noConfusion h

theorem assetEvents_mem (url? : Option String) (ev : Event)
    (h : ev ∈ assetEvents url?) : ∃ u, ev = Event.fetchAsset u := by
  unfold assetEvents at h
  by_cases htr : truthyStr url? = true
  · rw [if_pos htr] at h
    rw [List.mem_singleton] at h
    exact ⟨_, h⟩
  · rw [if_neg htr] at h
    simp at h

theorem episodesEvents_mem (env : Env) (media : Media) (n : Int) (ev : Event)
    (h : ev ∈ episodesEvents env media n) :
    ev = Event.fetchEpisodes n ∨ ∃ u, ev = Event.fetchAsset u := by
  unfold episodesEvents at h
  cases hr : env.episodesResp n with
  | none =>
    simp only [hr, List.mem_singleton] at h
    exact Or.inl h
  | some resp =>
    cases hre : resp.episodes with
    | none =>
      simp only [hr, hre, List.mem_singleton] at h
      exact Or.inl h
    | some eps =>
      simp only [hr, hre] at h
      rcases List.mem_cons.mp h with he | hfl
      · exact Or.inl he
      · right
        rw [List.mem_flatten] at hfl
        obtain ⟨l, hl, hev⟩ := hfl
        rw [List.mem_map] at hl
        obtain ⟨d, _, hd⟩ := hl
        rw [← hd] at hev
        cases hk : epKey media n d with
        | none => simp only [hk] at hev; simp at hev
        | some k =>
          simp only [hk] at hev
          exact assetEvents_mem d.thumb_url ev hev

theorem seasonEvents_mem (env : Env) (media : Media) (sd : SeasonRecord)
    (ev : Event) (h : ev ∈ seasonEvents env media sd) :
    ∃ n, seasonKey media sd = some n ∧
      (ev = Event.fetchEpisodes n ∨ ∃ u, ev = Event.fetchAsset u) := by
  unfold seasonEvents at h
  cases hk : seasonKey media sd with
  | none => simp only [hk] at h; simp at h
  | some n =>
    simp only [hk] at h
    refine ⟨n, rfl, ?_⟩
    rcases List.mem_append.mp h with ha | he
    · exact Or.inr (assetEvents_mem sd.poster_url ev ha)
    · exact episodesEvents_mem env media n ev he

theorem seriesPartEvents_mem (sopt : Option SeriesRecord) (ev : Event)
    (h : ev ∈ seriesPartEvents sopt) : ∃ u, ev = Event.fetchAsset u := by
  cases sopt with
  | none => simp [seriesPartEvents] at h
  | some sr =>
    simp only [seriesPartEvents] at h
    by_cases ht : seriesTruthy sr = true
    · rw [if_pos ht] at h
      unfold seriesEvents at h
      rcases List.mem_append.mp h with h1 | h2
      · rcases List.mem_append.mp h1 with h3 | h4
        · exact assetEvents_mem sr.poster_url ev h3
        · exact assetEvents_mem sr.banner_url ev h4
      · exact assetEvents_mem sr.fanart_url ev h2
    · rw [if_neg ht] at h
      simp at h

/-! ### Frame lemmas for unknown seasons and episodes -/

theorem getA_seasonsPart_frame (env : Env) (media : Media)
    (S : List (Int × HostSeason)) (n : Int) (h : hasSeason media n = false) :
    getA (seasonsPart env media S) n = getA S n := by
  cases hq : env.seasonsResp with
  | none => simp [seasonsPart, hq]
  | some resp =>
    cases hqs : resp.seasons with
    | none => simp [seasonsPart, hq, hqs]
    | some sds =>
      simp only [seasonsPart, hq, hqs]
      apply getA_foldStep_frame
      intro hmem
      rw [mem_filterMap_seasonKey media sds n hmem] at h
      exact Bool.noConfusion h

theorem episodeEntry_seasonsPart (env : Env) (media : Media)
    (S : List (Int × HostSeason)) (n e : Int)
    (hce : (knownEpisodes media n).contains e = false) :
    getA ((getA (seasonsPart env media S) n).getD emptyHostSeason).episodes e =
      getA ((getA S n).getD emptyHostSeason).episodes e := by
  cases hq : env.seasonsResp with
  | none => simp [seasonsPart, hq]
  | some resp =>
    cases hqs : resp.seasons with
    | none => simp [seasonsPart, hq, hqs]
    | some sds =>
      simp only [seasonsPart, hq, hqs]
      apply foldStep_obs (seasonKey media) (trSeason env media) emptyHostSeason
        (fun s => getA s.episodes e) n
      intro sd s hk
      have hnum : sd.season_number = some n := seasonKey_number media sd n hk
      show getA (trSeason env media sd s).episodes e = getA s.episodes e
      unfold trSeason
      rw [hnum]
      show getA ((applySeason env media n sd s).1).episodes e = _
      rw [applySeason_eq]
      show getA (episodesPart env media n s.episodes) e = _
      cases hr2 : env.episodesResp n with
      | none => simp [episodesPart, hr2]
      | some resp2 =>
        cases hre2 : resp2.episodes with
        | none => simp [episodesPart, hr2, hre2]
        | some eps =>
          simp only [episodesPart, hr2, hre2]
          apply getA_foldStep_frame
          intro hmem
          rw [mem_filterMap_epKey media n eps e hmem] at hce
          exact Bool.noConfusion hce

/-! ## Claim C1 -/

/-- Claim C1: the update pass never fabricates structure — a season
number the host does not know is left untouched, an episode number the
host does not know for a season is left untouched, and an episodes fetch
is issued only for seasons the host knows (episodes of a skipped season
are never requested). -/
theorem update_no_fabrication (env : Env) (media : Media) (m : HostMetadata) :
    (∀ n : Int, hasSeason media n = false →
      seasonEntry (update env media m).1 n = seasonEntry m n) ∧
    (∀ n e : Int, (knownEpisodes media n).contains e = false →
      episodeEntry (update env media m).1 n e = episodeEntry m n e) ∧
    (∀ n : Int, Event.fetchEpisodes n ∈ (update env media m).2 →
      hasSeason media n = true) := by
  cases hser : env.seriesResp with
  | none =>
    have hupd : update env media m = (m, [Event.fetchSeries]) := by
      unfold update
      rw [hser]
    rw [hupd]
    refine ⟨fun n _ => rfl, fun n e _ => rfl, fun n hn => ?_⟩
    simp at hn
  | some sopt =>
    rw [update_eq env media m sopt hser]
    refine ⟨fun n hn => ?_, fun n e hce => ?_, fun n hn => ?_⟩
    · show getA (seasonsPart env media (seriesPart env sopt m).seasons) n =
        getA m.seasons n
      rw [seriesPart_seasons]
      exact getA_seasonsPart_frame env media m.seasons n hn
    · show getA ((getA (seasonsPart env media (seriesPart env sopt m).seasons) n).getD
          emptyHostSeason).episodes e = _
      rw [seriesPart_seasons]
      exact episodeEntry_seasonsPart env media m.seasons n e hce
    · rcases List.mem_cons.mp hn with he | hn2
      · exact Event.noConfusion he
      rcases List.mem_append.mp hn2 with hn3 | hn4
      · rcases List.mem_append.mp hn3 with hn5 | hn6
        · obtain ⟨u, hu⟩ := seriesPartEvents_mem sopt _ hn5
          exact Event.noConfusion hu
        · rw [List.mem_singleton] at hn6
          exact Event.noConfusion hn6
      · cases hq : env.seasonsResp with
        | none => simp [seasonsPartEvents, hq] at hn4
        | some resp =>
          cases hqs : resp.seasons with
          | none => simp [seasonsPartEvents, hq, hqs] at hn4
          | some sds =>
            simp only [seasonsPartEvents, hq, hqs] at hn4
            rw [List.mem_flatten] at hn4
            obtain ⟨l, hl, hev⟩ := hn4
            rw [List.mem_map] at hl
            obtain ⟨sd, _, hd⟩ := hl
            rw [← hd] at hev
            obtain ⟨n', hk, hor⟩ := seasonEvents_mem env media sd _ hev
            rcases hor with he' | ⟨u, hu⟩
            · cases he'
              exact seasonKey_hasSeason media sd n hk
            · exact Event.noConfusion hu

/-- Witness for C1: remote season 9 and remote episode 7 of season 1 are
unknown to the host fixture and are left untouched by the update. -/
theorem update_no_fabrication_witness :
    (hasSeason mediaOne 9 = false ∧
      seasonEntry (update envFix mediaOne metaPrior).1 9 =
        seasonEntry metaPrior 9) ∧
    ((knownEpisodes mediaOne 1).contains 7 = false ∧
      episodeEntry (update envFix mediaOne metaPrior).1 1 7 =
        episodeEntry metaPrior 1 7) :=
  ⟨⟨by decide,
      (update_no_fabrication envFix mediaOne metaPrior).1 9 (by decide)⟩,
    ⟨by decide,
      (update_no_fabrication envFix mediaOne metaPrior).2.1 1 7 (by decide)⟩⟩


/-! ### Agreement lemmas (claim C4 machinery) -/

theorem imgAgree_refl (hA hB : String → Option String)
    (P : List (String × String)) : imgAgree hA hB P P :=
  fun _ _ => rfl

theorem epAgree_refl (hA hB : String → Option String) (e : HostEpisode) :
    epAgree hA hB e e :=
  ⟨rfl, rfl, rfl, rfl, imgAgree_refl hA hB e.thumbs⟩

theorem pairRel_refl_list {K V : Type} (R : V → V → Prop) (h : ∀ v, R v v)
    (l : List (K × V)) : List.Forall₂ (pairRel R) l l :=
  List.forall₂_same.mpr (fun p _ => ⟨rfl, h p.2⟩)

theorem seasonAgree_refl (hA hB : String → Option String) (s : HostSeason) :
    seasonAgree hA hB s s :=
  ⟨rfl, rfl, imgAgree_refl hA hB s.posters,
    pairRel_refl_list _ (epAgree_refl hA hB) s.episodes⟩

theorem metaAgree_refl (hA hB : String → Option String) (m : HostMetadata) :
    metaAgree hA hB m m :=
  ⟨rfl, rfl, rfl, rfl, rfl, rfl, imgAgree_refl hA hB m.posters,
    imgAgree_refl hA hB m.banners, imgAgree_refl hA hB m.art,
    pairRel_refl_list _ (seasonAgree_refl hA hB) m.seasons⟩

theorem attachOp_agree (envA envB : Env) (url? : Option String)
    (P Q : List (String × String)) (h : imgAgree envA.http envB.http P Q) :
    imgAgree envA.http envB.http (attachOp envA url? P)
      (attachOp envB url? Q) := by
  intro u hu
  unfold attachOp
  by_cases htr : truthyStr url? = true
  · rw [if_pos htr, if_pos htr]
    by_cases hueq : u = url?.getD ""
    · subst hueq
      rw [hu]
      cases hB : envB.http (url?.getD "") with
      | none => exact h _ hu
      | some c => rw [getA_setA_self, getA_setA_self]
    · have hne : url?.getD "" ≠ u := fun hh => hueq hh.symm
      cases hA2 : envA.http (url?.getD "") with
      | none =>
        cases hB2 : envB.http (url?.getD "") with
        | none => exact h u hu
        | some c => rw [getA_setA_ne _ _ _ _ hne]; exact h u hu
      | some c =>
        cases hB2 : envB.http (url?.getD "") with
        | none => rw [getA_setA_ne _ _ _ _ hne]; exact h u hu
        | some c2 =>
          rw [getA_setA_ne _ _ _ _ hne, getA_setA_ne _ _ _ _ hne]
          exact h u hu
  · rw [if_neg htr, if_neg htr]
    exact h u hu

theorem trEp_agree (envA envB : Env) (hpd : envA.parseDate = envB.parseDate)
    (d : EpisodeRecord) (e1 e2 : HostEpisode)
    (h : epAgree envA.http envB.http e1 e2) :
    epAgree envA.http envB.http (trEp envA d e1) (trEp envB d e2) := by
  obtain ⟨ht, hs, ho, hd2, hth⟩ := h
  unfold trEp
  rw [applyEpisode_eq, applyEpisode_eq]
  refine ⟨rfl, rfl, ?_, ?_, ?_⟩
  · show airOp envA d e1.originally_available_at =
      airOp envB d e2.originally_available_at
    unfold airOp
    rw [hpd, ho]
  · show durOp d e1.duration = durOp d e2.duration
    rw [hd2]
  · exact attachOp_agree envA envB d.thumb_url e1.thumbs e2.thumbs hth

theorem episodesPart_agree (envA envB : Env)
    (hep : envA.episodesResp = envB.episodesResp)
    (hpd : envA.parseDate = envB.parseDate) (media : Media) (n : Int)
    (E1 E2 : List (Int × HostEpisode))
    (h : List.Forall₂ (pairRel (epAgree envA.http envB.http)) E1 E2) :
    List.Forall₂ (pairRel (epAgree envA.http envB.http))
      (episodesPart envA media n E1) (episodesPart envB media n E2) := by
  cases hr : envA.episodesResp n with
  | none =>
    have hrB : envB.episodesResp n = none := by rw [← hep]; exact hr
    simp only [episodesPart, hr, hrB]
    exact h
  | some resp =>
    have hrB : envB.episodesResp n = some resp := by rw [← hep]; exact hr
    cases hre : resp.episodes with
    | none =>
      simp only [episodesPart, hr, hrB, hre]
      exact h
    | some eps =>
      simp only [episodesPart, hr, hrB, hre]
      exact foldStep_forall₂ (epKey media n) (trEp envA) (trEp envB)
        emptyHostEpisode (epAgree envA.http envB.http)
        (fun d v w hvw => trEp_agree envA envB hpd d v w hvw)
        (epAgree_refl envA.http envB.http emptyHostEpisode) eps E1 E2 h

theorem trSeason_agree (envA envB : Env)
    (hep : envA.episodesResp = envB.episodesResp)
    (hpd : envA.parseDate = envB.parseDate) (media : Media)
    (sd : SeasonRecord) (s1 s2 : HostSeason)
    (h : seasonAgree envA.http envB.http s1 s2) :
    seasonAgree envA.http envB.http (trSeason envA media sd s1)
      (trSeason envB media sd s2) := by
  obtain ⟨ht, hs, hp, hE⟩ := h
  unfold trSeason
  rw [applySeason_eq, applySeason_eq]
  refine ⟨rfl, rfl, ?_, ?_⟩
  · exact attachOp_agree envA envB sd.poster_url s1.posters s2.posters hp
  · exact episodesPart_agree envA envB hep hpd media _ s1.episodes
      s2.episodes hE

theorem seasonsPart_agree (envA envB : Env)
    (hss : envA.seasonsResp = envB.seasonsResp)
    (hep : envA.episodesResp = envB.episodesResp)
    (hpd : envA.parseDate = envB.parseDate) (media : Media)
    (S1 S2 : List (Int × HostSeason))
    (h : List.Forall₂ (pairRel (seasonAgree envA.http envB.http)) S1 S2) :
    List.Forall₂ (pairRel (seasonAgree envA.http envB.http))
      (seasonsPart envA media S1) (seasonsPart envB media S2) := by
  cases hq : envA.seasonsResp with
  | none =>
    have hqB : envB.seasonsResp = none := by rw [← hss]; exact hq
    simp only [seasonsPart, hq, hqB]
    exact h
  | some resp =>
    have hqB : envB.seasonsResp = some resp := by rw [← hss]; exact hq
    cases hqs : resp.seasons with
    | none =>
      simp only [seasonsPart, hq, hqB, hqs]
      exact h
    | some sds =>
      simp only [seasonsPart, hq, hqB, hqs]
      exact foldStep_forall₂ (seasonKey media) (trSeason envA media)
        (trSeason envB media) emptyHostSeason
        (seasonAgree envA.http envB.http)
        (fun sd v w hvw => trSeason_agree envA envB hep hpd media sd v w hvw)
        (seasonAgree_refl envA.http envB.http emptyHostSeason) sds S1 S2 h

theorem seriesPart_agree (envA envB : Env)
    (hpd : envA.parseDate = envB.parseDate) (sopt : Option SeriesRecord)
    (m : HostMetadata) :
    metaAgree envA.http envB.http (seriesPart envA sopt m)
      (seriesPart envB sopt m) := by
  cases sopt with
  | none => exact metaAgree_refl _ _ m
  | some sr =>
    by_cases ht : seriesTruthy sr = true
    · simp only [seriesPart]
      rw [if_pos ht, if_pos ht]
      simp only [seriesApplyM]
      rw [seriesApply_eq, seriesApply_eq]
      refine ⟨rfl, rfl, ?_, rfl, rfl, rfl, ?_, ?_, ?_, ?_⟩
      · show (if truthyInt sr.year then
            envA.parseDate (toString (sr.year.getD 0) ++ "-01-01") else none) =
          (if truthyInt sr.year then
            envB.parseDate (toString (sr.year.getD 0) ++ "-01-01") else none)
        rw [hpd]
      · exact attachOp_agree envA envB sr.poster_url m.posters m.posters
          (imgAgree_refl _ _ m.posters)
      · exact attachOp_agree envA envB sr.banner_url m.banners m.banners
          (imgAgree_refl _ _ m.banners)
      · exact attachOp_agree envA envB sr.fanart_url m.art m.art
          (imgAgree_refl _ _ m.art)
      · exact pairRel_refl_list _ (seasonAgree_refl _ _) m.seasons
    · simp only [seriesPart]
      rw [if_neg ht, if_neg ht]
      exact metaAgree_refl _ _ m

theorem episodesEvents_congr (envA envB : Env) (media : Media) (n : Int)
    (hep : envA.episodesResp = envB.episodesResp) :
    episodesEvents envA media n = episodesEvents envB media n := by
  unfold episodesEvents
  rw [hep]

theorem seasonEvents_congr (envA envB : Env) (media : Media)
    (sd : SeasonRecord) (hep : envA.episodesResp = envB.episodesResp) :
    seasonEvents envA media sd = seasonEvents envB media sd := by
  unfold seasonEvents
  cases hk : seasonKey media sd with
  | none => rfl
  | some n =>
    simp only [hk]
    rw [episodesEvents_congr envA envB media n hep]

theorem seasonsPartEvents_congr (envA envB : Env) (media : Media)
    (hss : envA.seasonsResp = envB.seasonsResp)
    (hep : envA.episodesResp = envB.episodesResp) :
    seasonsPartEvents envA media = seasonsPartEvents envB media := by
  cases hq : envB.seasonsResp with
  | none => simp only [seasonsPartEvents, hss, hq]
  | some resp =>
    cases hqs : resp.seasons with
    | none => simp only [seasonsPartEvents, hss, hq, hqs]
    | some sds =>
      simp only [seasonsPartEvents, hss, hq, hqs]
      exact congrArg List.flatten
        (List.map_congr_left
          (fun sd _ => seasonEvents_congr envA envB media sd hep))

/-! ## Claim C4 -/

/-- Claim C4: per-asset fault isolation.  For two runs of `update` whose
environments agree on everything except the outcomes of asset fetches
(the HTTP behaviour), the request traces are identical — so a failing
series poster fetch never prevents the banner, fanart, season poster or
episode thumbnail fetches from being attempted — and the resulting
metadata objects agree on every scalar field and on every image slot
whose url the two HTTP behaviours answer alike: an asset failure is
isolated to its own slot and aborts nothing. -/
theorem asset_fault_isolation (envA envB : Env) (media : Media)
    (m : HostMetadata) (hse : envA.seriesResp = envB.seriesResp)
    (hss : envA.seasonsResp = envB.seasonsResp)
    (hep : envA.episodesResp = envB.episodesResp)
    (hpd : envA.parseDate = envB.parseDate) :
    (update envA media m).2 = (update envB media m).2 ∧
    metaAgree envA.http envB.http (update envA media m).1
      (update envB media m).1 := by
  cases hser : envA.seriesResp with
  | none =>
    have hserB : envB.seriesResp = none := by rw [← hse]; exact hser
    have h1 : update envA media m = (m, [Event.fetchSeries]) := by
      unfold update
      rw [hser]
    have h2 : update envB media m = (m, [Event.fetchSeries]) := by
      unfold update
      rw [hserB]
    rw [h1, h2]
    exact ⟨rfl, metaAgree_refl _ _ m⟩
  | some sopt =>
    have hserB : envB.seriesResp = some sopt := by rw [← hse]; exact hser
    rw [update_eq envA media m sopt hser, update_eq envB media m sopt hserB]
    constructor
    · rw [seasonsPartEvents_congr envA envB media hss hep]
    · obtain ⟨h1, h2, h3, h4, h5, h6, h7, h8, h9, _⟩ :=
        seriesPart_agree envA envB hpd sopt m
      refine ⟨h1, h2, h3, h4, h5, h6, h7, h8, h9, ?_⟩
      show List.Forall₂ (pairRel (seasonAgree envA.http envB.http))
        (seasonsPart envA media (seriesPart envA sopt m).seasons)
        (seasonsPart envB media (seriesPart envB sopt m).seasons)
      rw [seriesPart_seasons, seriesPart_seasons]
      exact seasonsPart_agree envA envB hss hep hpd media m.seasons m.seasons
        (pairRel_refl_list _ (seasonAgree_refl _ _) m.seasons)

/-- Witness for C4: the all-successful fixture environment versus the
fixture whose poster fetch fails; traces coincide and the metadata
objects agree wherever the two HTTP behaviours do. -/
theorem asset_fault_isolation_witness :
    (envGood.seriesResp = envFix.seriesResp ∧
      envGood.seasonsResp = envFix.seasonsResp ∧
      envGood.episodesResp = envFix.episodesResp ∧
      envGood.parseDate = envFix.parseDate) ∧
    ((update envGood mediaOne metaPrior).2 =
        (update envFix mediaOne metaPrior).2 ∧
      metaAgree envGood.http envFix.http
        (update envGood mediaOne metaPrior).1
        (update envFix mediaOne metaPrior).1) :=
  ⟨⟨rfl, rfl, rfl, rfl⟩,
    asset_fault_isolation envGood envFix mediaOne metaPrior rfl rfl rfl rfl⟩


/-! ### Idempotence machinery (claim C5) -/

theorem setA_idem {K V : Type} [DecidableEq K] (M : List (K × V)) (k : K)
    (v : V) : setA (setA M k v) k v = setA M k v :=
  setA_noop _ k v (uniformAt_setA_self M k v).1 (uniformAt_setA_self M k v).2

theorem attachOp_idem (env : Env) (url? : Option String)
    (P : List (String × String)) :
    attachOp env url? (attachOp env url? P) = attachOp env url? P := by
  by_cases htr : truthyStr url? = true
  · cases hh : env.http (url?.getD "") with
    | none => simp [attachOp, htr, hh]
    | some c => simp [attachOp, htr, hh, setA_idem]
  · simp [attachOp, htr]

theorem airOp_idem (env : Env) (d : EpisodeRecord) (prev : Option String) :
    airOp env d (airOp env d prev) = airOp env d prev := by
  unfold airOp
  by_cases htr : truthyStr d.air_date = true
  · simp only [if_pos htr]
    cases env.parseDate (d.air_date.getD "") <;> rfl
  · simp only [if_neg htr]

theorem durOp_idem (d : EpisodeRecord) (prev : Option Int) :
    durOp d (durOp d prev) = durOp d prev := by
  unfold durOp
  by_cases htr : truthyInt d.duration_minutes = true
  · simp only [if_pos htr]
  · simp only [if_neg htr]

theorem trEp_idem (env : Env) (d : EpisodeRecord) (e : HostEpisode) :
    trEp env d (trEp env d e) = trEp env d e := by
  unfold trEp
  simp [applyEpisode_eq, airOp_idem, durOp_idem, attachOp_idem]

/-- A pointwise-smaller key choice gives a sublist of the extracted
keys. -/
theorem filterMap_choice_sublist {α K : Type} (f g : α → Option K)
    (hfg : ∀ a, g a = none ∨ g a = f a) :
    ∀ l : List α, List.Sublist (l.filterMap g) (l.filterMap f) := by
  intro l
  induction l with
  | nil => exact List.Sublist.refl _
  | cons a l ih =>
    rcases hfg a with h0 | he
    · rw [List.filterMap_cons, List.filterMap_cons, h0]
      cases hf : f a with
      | none => exact ih
      | some b => exact ih.trans (List.sublist_cons_self b _)
    · rw [List.filterMap_cons, List.filterMap_cons, he]
      cases hf : f a with
      | none => exact ih
      | some b => exact ih.cons₂ b

theorem epKey_choice (media : Media) (n : Int) (d : EpisodeRecord) :
    epKey media n d = none ∨ epKey media n d = d.episode_number := by
  cases hnum : d.episode_number with
  | none => left; simp [epKey, hnum]
  | some k =>
    by_cases hc : k ∈ knownEpisodes media n
    · right; simp [epKey, hnum, hc]
    · left; simp [epKey, hnum, hc]

theorem seasonKey_choice (media : Media) (sd : SeasonRecord) :
    seasonKey media sd = none ∨ seasonKey media sd = sd.season_number := by
  cases hnum : sd.season_number with
  | none => left; simp [seasonKey, hnum]
  | some k =>
    by_cases hc : hasSeason media k = true
    · right; simp [seasonKey, hnum, hc]
    · left; simp [seasonKey, hnum, hc]

theorem episodesPart_idem (env : Env) (media : Media) (n : Int)
    (hnd : match env.episodesResp n with
      | some resp =>
        match resp.episodes with
        | some eps => (eps.filterMap EpisodeRecord.episode_number).Nodup
        | none => True
      | none => True)
    (E : List (Int × HostEpisode)) :
    episodesPart env media n (episodesPart env media n E) =
      episodesPart env media n E := by
  cases hr : env.episodesResp n with
  | none => simp [episodesPart, hr]
  | some resp =>
    cases hre : resp.episodes with
    | none => simp [episodesPart, hr, hre]
    | some eps =>
      rw [hr] at hnd
      simp only [hre] at hnd
      simp only [episodesPart, hr, hre]
      exact foldStep_idem (epKey media n) (trEp env) emptyHostEpisode
        (trEp_idem env) eps
        (hnd.sublist (filterMap_choice_sublist EpisodeRecord.episode_number
          (epKey media n) (epKey_choice media n) eps)) E

theorem trSeason_idem (env : Env) (media : Media) (sd : SeasonRecord)
    (hwf2 : ∀ n : Int, match env.episodesResp n with
      | some resp =>
        match resp.episodes with
        | some eps => (eps.filterMap EpisodeRecord.episode_number).Nodup
        | none => True
      | none => True)
    (s : HostSeason) :
    trSeason env media sd (trSeason env media sd s) =
      trSeason env media sd s := by
  unfold trSeason
  simp [applySeason_eq, attachOp_idem,
    episodesPart_idem env media (sd.season_number.getD 0)
      (hwf2 (sd.season_number.getD 0))]

theorem seasonsPart_idem (env : Env) (media : Media) (hwf : wfEnv env)
    (S : List (Int × HostSeason)) :
    seasonsPart env media (seasonsPart env media S) =
      seasonsPart env media S := by
  obtain ⟨hwf1, hwf2⟩ := hwf
  cases hq : env.seasonsResp with
  | none => simp [seasonsPart, hq]
  | some resp =>
    cases hqs : resp.seasons with
    | none => simp [seasonsPart, hq, hqs]
    | some sds =>
      rw [hq] at hwf1
      simp only [hqs] at hwf1
      simp only [seasonsPart, hq, hqs]
      exact foldStep_idem (seasonKey media) (trSeason env media)
        emptyHostSeason (fun sd s => trSeason_idem env media sd hwf2 s) sds
        (hwf1.sublist (filterMap_choice_sublist SeasonRecord.season_number
          (seasonKey media) (seasonKey_choice media) sds)) S

theorem seriesPart_commute (env : Env) (sopt : Option SeriesRecord)
    (X : HostMetadata) (S : List (Int × HostSeason)) :
    seriesPart env sopt { X with seasons := S } =
      { seriesPart env sopt X with seasons := S } := by
  cases sopt with
  | none => rfl
  | some sr =>
    by_cases ht : seriesTruthy sr = true
    · simp only [seriesPart]
      rw [if_pos ht, if_pos ht]
      simp only [seriesApplyM]
      rw [seriesApply_eq, seriesApply_eq]
    · simp only [seriesPart]
      rw [if_neg ht, if_neg ht]

theorem seriesPart_idem (env : Env) (sopt : Option SeriesRecord)
    (X : HostMetadata) :
    seriesPart env sopt (seriesPart env sopt X) = seriesPart env sopt X := by
  cases sopt with
  | none => rfl
  | some sr =>
    by_cases ht : seriesTruthy sr = true
    · simp [seriesPart, seriesApplyM, ht, seriesApply_eq, attachOp_idem]
    · simp [seriesPart, ht]

theorem foldl_addGenre_spec :
    ∀ (L : List String) (gs : List String), gs.Nodup →
      (L.foldl addGenre gs).Nodup ∧
        ∀ g, g ∈ L.foldl addGenre gs ↔ g ∈ gs ∨ g ∈ L := by
  intro L
  induction L with
  | nil =>
    intro gs h
    exact ⟨h, fun g => by simp⟩
  | cons a L ih =>
    intro gs h
    rw [List.foldl_cons]
    have hstep : (addGenre gs a).Nodup := by
      unfold addGenre
      by_cases ha : a ∈ gs
      · rw [if_pos ha]
        exact h
      · rw [if_neg ha]
        simp [List.nodup_append, h, ha]
    obtain ⟨h1, h2⟩ := ih (addGenre gs a) hstep
    refine ⟨h1, fun g => ?_⟩
    rw [h2 g]
    unfold addGenre
    by_cases ha : a ∈ gs
    · rw [if_pos ha]
      constructor
      · rintro (hg | hg)
        · exact Or.inl hg
        · exact Or.inr (List.mem_cons_of_mem a hg)
      · rintro (hg | hg)
        · exact Or.inl hg
        · rcases List.mem_cons.mp hg with rfl | hg2
          · exact Or.inl ha
          · exact Or.inr hg2
    · rw [if_neg ha]
      constructor
      · rintro (hg | hg)
        · rcases List.mem_append.mp hg with hg1 | hg1
          · exact Or.inl hg1
          · rw [List.mem_singleton] at hg1
            exact Or.inr (hg1 ▸ List.mem_cons_self a L)
        · exact Or.inr (List.mem_cons_of_mem a hg)
      · rintro (hg | hg)
        · exact Or.inl (List.mem_append.mpr (Or.inl hg))
        · rcases List.mem_cons.mp hg with rfl | hg2
          · exact Or.inl (List.mem_append.mpr (Or.inr (List.mem_singleton.mpr rfl)))
          · exact Or.inr hg2

/-- One pass of the metadata effect of `update` absorbs a second pass. -/
theorem update_meta_idem (env : Env) (media : Media)
    (sopt : Option SeriesRecord) (hwf : wfEnv env) (X : HostMetadata) :
    ({ seriesPart env sopt { seriesPart env sopt X with seasons := seasonsPart env media (seriesPart env sopt X).seasons } with seasons := seasonsPart env media (seriesPart env sopt { seriesPart env sopt X with seasons := seasonsPart env media (seriesPart env sopt X).seasons }).seasons } : HostMetadata) =
    { seriesPart env sopt X with seasons := seasonsPart env media (seriesPart env sopt X).seasons } := by
  rw [seriesPart_commute env sopt (seriesPart env sopt X)
      (seasonsPart env media (seriesPart env sopt X).seasons),
    seriesPart_idem env sopt X]
  show ({ { seriesPart env sopt X with seasons := seasonsPart env media (seriesPart env sopt X).seasons } with seasons := seasonsPart env media (seasonsPart env media (seriesPart env sopt X).seasons) } : HostMetadata) = _
  rw [seasonsPart_idem env media hwf (seriesPart env sopt X).seasons]

/-! ## Claim C5 -/

/-- Claim C5: `update` is idempotent — a second run with the same remote
responses (well-formed per the spec's data model: unique season and
episode numbers) leaves every host-side field exactly as the first run
did; and the genre set is cleared and repopulated on each run, so it
ends duplicate-free and contains exactly the genres of the fetched
series record, independently of what was stored before. -/
theorem update_idempotent (env : Env) (media : Media) (m : HostMetadata)
    (hwf : wfEnv env) :
    (update env media (update env media m).1).1 = (update env media m).1 ∧
    ∀ sr, env.seriesResp = some (some sr) → seriesTruthy sr = true →
      ((update env media m).1.genres.Nodup ∧
        ∀ g, g ∈ (update env media m).1.genres ↔ g ∈ sr.genres.getD []) := by
  constructor
  · cases hser : env.seriesResp with
    | none =>
      have hu : ∀ X, update env media X = (X, [Event.fetchSeries]) := by
        intro X
        unfold update
        rw [hser]
      rw [hu, hu]
    | some sopt =>
      rw [update_eq env media m sopt hser]
      rw [update_eq env media _ sopt hser]
      exact update_meta_idem env media sopt hwf m
  · intro sr hser ht
    rw [update_eq env media m (some sr) hser]
    have hg : (seriesPart env (some sr) m).genres =
        (sr.genres.getD []).foldl addGenre [] := by
      simp only [seriesPart]
      rw [if_pos ht]
      simp only [seriesApplyM]
      rw [seriesApply_eq]
    show ((seriesPart env (some sr) m).genres.Nodup ∧
      ∀ g, g ∈ (seriesPart env (some sr) m).genres ↔ g ∈ sr.genres.getD [])
    rw [hg]
    obtain ⟨h1, h2⟩ := foldl_addGenre_spec (sr.genres.getD []) [] List.nodup_nil
    refine ⟨h1, fun g => ?_⟩
    rw [h2 g]
    simp


/-- Witness for C5 at the concrete fixture environment (well-formed:
distinct season numbers and distinct episode numbers). -/
theorem update_idempotent_witness :
    wfEnv envFix ∧
    ((update envFix mediaOne (update envFix mediaOne metaPrior).1).1 =
        (update envFix mediaOne metaPrior).1 ∧
      ∀ sr, envFix.seriesResp = some (some sr) → seriesTruthy sr = true →
        ((update envFix mediaOne metaPrior).1.genres.Nodup ∧
          ∀ g, g ∈ (update envFix mediaOne metaPrior).1.genres ↔
            g ∈ sr.genres.getD [])) :=
  have hwf : wfEnv envFix :=
    ⟨by simp only [envFix]; decide, fun n => by
      by_cases hn : n = 1
      · subst hn
        show (List.filterMap EpisodeRecord.episode_number
          [epMain, epZeroDur, epPrelims]).Nodup
        decide
      · simp only [envFix]
        rw [if_neg hn]
        trivial⟩
  ⟨hwf, update_idempotent envFix mediaOne metaPrior hwf⟩

end Sportarr
